import Mathlib

/-!
Verification development for the data-access and realtime-update layer of the
drive-test tracking portal: transport error normalizer, REST client retry loop,
WebSocket client reconnect machine, configuration resolver, and the mock and
live data providers.  Each definition is a shallow embedding of the
corresponding JavaScript source function; JS numbers appearing in seed data are
embedded as rationals, machine state (timers, sockets, subscriber sets) as
explicit state records acted on by step functions.
-/

set_option autoImplicit false

namespace Portal

/-! ## JavaScript value models -/

/-- Primitive JS values, used for fields (such as an error message) that the
source reads without assuming a string. `pOther` stands for any non-primitive
value (an object); only its truthiness and non-stringness are observed. -/
inductive JsPrim where
  | pUndefined
  | pNull
  | pBool (b : Bool)
  | pNumber (n : Int)
  | pString (s : String)
  | pOther
deriving DecidableEq, Repr

/-- Truthiness of a primitive JS value (`Boolean(v)`). -/
def JsPrim.truthy : JsPrim → Bool
  | .pUndefined => false
  | .pNull => false
  | .pBool b => b
  | .pNumber n => decide (n ≠ 0)
  | .pString s => !s.isEmpty
  | .pOther => true

/-- Error-instance classification of a JS object: not an `Error`, a plain
`Error` (including `DOMException`), or a `TypeError`. -/
inductive ErrKind where
  | notError
  | plainError
  | typeError
deriving DecidableEq, Repr

/-- Observed shape of a raw value thrown at the transport layer, as inspected
by `normalizeError` (src/unnamed/part_007, `normalizeError`): whether it is an
object and what its `name` and `message` fields hold, whether it is an `Error`
or `TypeError` instance, or whether it is a plain string or something else.
A non-string `name` behaves like a string different from "AbortError" and is
encoded by its string comparison image. -/
inductive RawErr where
  | jsObject (name : Option String) (kind : ErrKind) (message : JsPrim)
  | jsString (s : String)
  | jsOther
deriving DecidableEq, Repr

/-- Test `err && typeof err === "object" && "name" in err && err.name === "AbortError"`. -/
def RawErr.abortNamed : RawErr → Bool
  | .jsObject (some n) _ _ => n == "AbortError"
  | _ => false

/-- The `message` local of `normalizeError`:
`err instanceof Error ? err.message : typeof err === "string" ? err : "Unknown error"`. -/
def RawErr.jsMessage : RawErr → JsPrim
  | .jsObject _ .plainError m => m
  | .jsObject _ .typeError m => m
  | .jsObject _ .notError _ => .pString "Unknown error"
  | .jsString s => .pString s
  | .jsOther => .pString "Unknown error"

/-- Test `err instanceof TypeError`. -/
def RawErr.isTypeErr : RawErr → Bool
  | .jsObject _ .typeError _ => true
  | _ => false

/-! ## Host string operations

The JS string methods the source calls (`trim`, `split(",")`, `startsWith`,
`toLowerCase`, `includes`) are modelled by structurally recursive functions on
the character list of the string. -/

/-- Drop leading and trailing whitespace from a character list. -/
def trimChars (l : List Char) : List Char :=
  ((l.dropWhile Char.isWhitespace).reverse.dropWhile Char.isWhitespace).reverse

/-- Embedding of `s.trim()`. -/
def jsTrim (s : String) : String :=
  ⟨trimChars s.data⟩

/-- Split a character list on a separator character; always returns at least
one piece, like the JS `split`. -/
def splitOnCharAux (sep : Char) : List Char → List Char → List String
  | [], acc => [⟨acc.reverse⟩]
  | c :: cs, acc =>
      if c == sep then ⟨acc.reverse⟩ :: splitOnCharAux sep cs []
      else splitOnCharAux sep cs (c :: acc)

/-- Embedding of `s.split(",")`. -/
def jsSplitOnComma (s : String) : List String :=
  splitOnCharAux ',' s.data []

/-- Embedding of `s.startsWith(c)` for a one-character prefix. -/
def jsStartsWithChar (s : String) (c : Char) : Bool :=
  match s.data with
  | [] => false
  | d :: _ => d == c

/-- Whether `p` is a prefix of `l`. -/
def listIsPrefixOf (p l : List Char) : Bool :=
  match p, l with
  | [], _ => true
  | _ :: _, [] => false
  | a :: ps, b :: ls => a == b && listIsPrefixOf ps ls

/-- Whether `pat` occurs as a contiguous run inside `l`. -/
def containsList (pat : List Char) : List Char → Bool
  | [] => pat.isEmpty
  | c :: rest => listIsPrefixOf pat (c :: rest) || containsList pat rest

/-- Embedding of `s.toLowerCase()`. -/
def jsToLower (s : String) : String :=
  ⟨s.data.map Char.toLower⟩

/-- Embedding of `s.includes(pat)`. -/
def jsIncludes (s pat : String) : Bool :=
  containsList pat.data s.data

/-! ## Transport error normalizer (src/unnamed/part_007, lines 185-238) -/

/-- Error codes of the `NormalizedError` taxonomy. -/
inductive ErrCode where
  | NETWORK
  | TIMEOUT
  | HTTP
  | ABORTED
  | UNKNOWN
deriving DecidableEq, Repr

/-- The `context` argument of `normalizeError`. -/
structure ErrContext where
  url : Option String
  status : Option Nat
deriving DecidableEq, Repr

/-- The stable error shape produced by `normalizeError`.  The `message` field
keeps the JS value (a non-`Error` raw message need not be a string), `details`
keeps the raw error when the source stores it. -/
structure NormalizedError where
  code : ErrCode
  message : JsPrim
  status : Option Nat
  url : Option String
  retriable : Bool
  details : Option RawErr
deriving DecidableEq, Repr

/-- Test whether a lowercased string message contains "timeout"
(`typeof message === "string" && message.toLowerCase().includes("timeout")`). -/
def timeoutMsg : JsPrim → Bool
  | .pString s => jsIncludes (jsToLower s) "timeout"
  | _ => false

/-- Shallow embedding of `normalizeError(err, context)`: classify a raw thrown
value into a `NormalizedError`, first match wins (abort, HTTP status, timeout
message, fetch `TypeError`, unknown). -/
def normalizeError (err : RawErr) (context : ErrContext) : NormalizedError :=
  let url := context.url
  let status := context.status
  if err.abortNamed then
    { code := .ABORTED, message := .pString "Request aborted", url := url,
      status := status, retriable := false, details := none }
  else
    let message := err.jsMessage
    match status with
    | some st =>
        { code := .HTTP, message := message, status := some st, url := url,
          retriable := decide (500 ≤ st) || decide (st = 429), details := some err }
    | none =>
        if timeoutMsg message then
          { code := .TIMEOUT, message := message, status := none, url := url,
            retriable := true, details := some err }
        else if err.isTypeErr then
          { code := .NETWORK,
            message := if message.truthy then message else .pString "Network error",
            status := none, url := url, retriable := true, details := some err }
        else
          { code := .UNKNOWN, message := message, status := none, url := url,
            retriable := false, details := some err }

/-! ## Raw JS values and a throwing-access semantics

The claim that `normalizeError` never throws is settled against a deeper model
in which property access and method calls can fail the way the JS runtime
would: `in` applied to a non-object throws, calling `toLowerCase` on a
non-string throws.  `normalizeErrorE` is the translation of the source into
this model; it is then proved to always return `Except.ok` of the value the
pure `normalizeError` computes on the observed shape. -/

/-- Raw JS runtime value.  An object carries its `Error`/`TypeError`
classification and its optional `name` and `message` fields. -/
inductive JsValue where
  | undefVal
  | vnull
  | vbool (b : Bool)
  | vnum (n : Int)
  | vstr (s : String)
  | vobj (kind : ErrKind) (nameF : Option JsValue) (msgF : Option JsValue)

/-- Result of `typeof v === "object"` (true for objects and for `null`). -/
def JsValue.isObjectType : JsValue → Bool
  | .vnull => true
  | .vobj .. => true
  | _ => false

/-- Truthiness of a raw JS value. -/
def JsValue.truthy : JsValue → Bool
  | .undefVal => false
  | .vnull => false
  | .vbool b => b
  | .vnum n => decide (n ≠ 0)
  | .vstr s => !s.isEmpty
  | .vobj .. => true

/-- The `in` operator restricted to the `name` property; throws a `TypeError`
when the right operand is not an object. -/
def jsHasName : JsValue → Except String Bool
  | .vobj _ nameF _ => .ok nameF.isSome
  | _ => .error "TypeError: cannot use in operator on a non-object"

/-- Property read `v.name`; throws on `null`/`undefined`, yields `undefined`
for a primitive or a missing field. -/
def jsGetName : JsValue → Except String JsValue
  | .undefVal => .error "TypeError: cannot read properties of undefined"
  | .vnull => .error "TypeError: cannot read properties of null"
  | .vobj _ nameF _ => .ok (nameF.getD .undefVal)
  | _ => .ok .undefVal

/-- Property read `v.message`, with the same failure behaviour as `jsGetName`. -/
def jsGetMessage : JsValue → Except String JsValue
  | .undefVal => .error "TypeError: cannot read properties of undefined"
  | .vnull => .error "TypeError: cannot read properties of null"
  | .vobj _ _ msgF => .ok (msgF.getD .undefVal)
  | _ => .ok .undefVal

/-- Strict equality of a JS value with a string literal. -/
def JsValue.strictEqStr : JsValue → String → Bool
  | .vstr t, s => t == s
  | _, _ => false

/-- Method call `v.toLowerCase()`; throws unless `v` is a string. -/
def jsToLowerCase : JsValue → Except String JsValue
  | .vstr s => .ok (.vstr (jsToLower s))
  | _ => .error "TypeError: toLowerCase is not a function"

/-- Test `err instanceof Error` on a raw value. -/
def JsValue.instanceOfError : JsValue → Bool
  | .vobj .plainError _ _ => true
  | .vobj .typeError _ _ => true
  | _ => false

/-- Test `err instanceof TypeError` on a raw value. -/
def JsValue.instanceOfTypeError : JsValue → Bool
  | .vobj .typeError _ _ => true
  | _ => false

/-- Forget a raw JS value down to the primitive the normalizer stores in a
message field (objects collapse to `pOther`). -/
def JsValue.toPrim : JsValue → JsPrim
  | .undefVal => .pUndefined
  | .vnull => .pNull
  | .vbool b => .pBool b
  | .vnum n => .pNumber n
  | .vstr s => .pString s
  | .vobj .. => .pOther

/-- Observed shape of a raw JS value, i.e. the `RawErr` abstraction
`normalizeError` classifies by. -/
def JsValue.toRawErr : JsValue → RawErr
  | .vstr s => .jsString s
  | .vobj kind nameF msgF =>
      .jsObject
        (match nameF with
          | some (.vstr n) => some n
          | some _ => some ""
          | none => none)
        kind
        ((msgF.getD .undefVal).toPrim)
  | _ => .jsOther

/-- Translation of `normalizeError` into the throwing-access model: every
property read and method call of the source goes through the `Except`-valued
access functions, and the source's guards (`err && typeof err === "object"`,
`instanceof Error`, `typeof message === "string"`) appear exactly where the
source has them. -/
def normalizeErrorE (err : JsValue) (context : ErrContext) : Except String NormalizedError := do
  let url := context.url
  let status := context.status

  let isAbort ←
    if err.truthy && err.isObjectType then do
      let hasName ← jsHasName err
      if hasName then do
        let n ← jsGetName err
        pure (n.strictEqStr "AbortError")
      else
        pure false
    else
      pure false

  if isAbort then
    pure { code := .ABORTED, message := .pString "Request aborted", url := url,
           status := status, retriable := false, details := none }
  else do
    let message ←
      if err.instanceOfError then do
        let m ← jsGetMessage err
        pure m
      else if let .vstr s := err then
        pure (JsValue.vstr s)
      else
        pure (JsValue.vstr "Unknown error")

    match status with
    | some st =>
        pure { code := .HTTP, message := message.toPrim, status := some st, url := url,
               retriable := decide (500 ≤ st) || decide (st = 429),
               details := some err.toRawErr }
    | none => do
        let isTimeout ←
          if let .vstr _ := message then do
            let lowered ← jsToLowerCase message
            match lowered with
            | .vstr ls => pure (jsIncludes ls "timeout")
            | _ => pure false
          else
            pure false
        if isTimeout then
          pure { code := .TIMEOUT, message := message.toPrim, status := none, url := url,
                 retriable := true, details := some err.toRawErr }
        else if err.instanceOfTypeError then
          pure { code := .NETWORK,
                 message := if message.truthy then message.toPrim else .pString "Network error",
                 status := none, url := url, retriable := true, details := some err.toRawErr }
        else
          pure { code := .UNKNOWN, message := message.toPrim, status := none, url := url,
                 retriable := false, details := some err.toRawErr }

/-! ## REST client retry loop (src/unnamed/part_007, `requestJson`, lines 306-431) -/

/-- Outcome of one fetch attempt, as seen by the body of the retry loop:
the response was ok and parsed to a payload, the response was non-2xx (with
its status, status text, and any `message` string carried by the parsed
payload), or the transport threw a raw error (network failure, abort or
timeout reason). -/
inductive FetchOutcome where
  | ok (payload : JsValue)
  | httpErr (status : Nat) (statusText : String) (payloadMessage : Option String)
  | raised (e : RawErr)

/-- Values that reach the `catch` block of `requestJson`: either a raw
transport error, or the `NormalizedError` thrown by the non-2xx branch (the
only objects with a `code` field thrown inside the loop). -/
inductive ThrownVal where
  | raw (e : RawErr)
  | normalized (ne : NormalizedError)
deriving DecidableEq, Repr

/-- Shape a caught value presents to `normalizeError` when re-normalized (a
`NormalizedError` is a plain object, not an `Error` instance, with no `name`
field and a `message` field that `normalizeError` does not read). -/
def ThrownVal.toRawErr : ThrownVal → RawErr
  | .raw e => e
  | .normalized ne => .jsObject none .notError ne.message

/-- Result of a `requestJson` call together with the observable trace the
claims speak about: the outcome, the number of fetch attempts issued, and the
list of backoff delays slept before each retry, in order. -/
structure ReqResult where
  outcome : Except NormalizedError JsValue
  attempts : Nat
  sleeps : List Nat

/-- The message string built for a non-2xx response:
`(payload && payload.message) || (the interpolated HTTP fallback)`. -/
def httpErrMessage (status : Nat) (statusText : String) (payloadMessage : Option String) : String :=
  match payloadMessage with
  | some m => if m.isEmpty then "HTTP " ++ toString status ++ " (" ++ statusText ++ ")" else m
  | none => "HTTP " ++ toString status ++ " (" ++ statusText ++ ")"

/-- Shallow embedding of the `while (attempt <= retries)` loop of
`requestJson`.  `env` gives the outcome of the fetch on each attempt number
(attempts are numbered from 1, the value of `attempt` after the increment at
the top of the loop body).  `lastErr` models the `lastErr` local.  The non-2xx
branch throws its `NormalizedError` inside the `try`, so the `catch` re-derives
the same retry decision (`"code" in err` is true, `code` is `HTTP`); the
embedding composes the two into one decision, which coincides with the
source's.  The loop-exit throw of line 430 is reachable only when the loop
condition fails, which the guarded `continue` prevents after entry. -/
def requestJsonLoop (env : Nat → FetchOutcome) (retries retryDelayMs : Nat) (url : String)
    (lastErr : Option ThrownVal) (attempt : Nat) : ReqResult :=
  if _h : attempt ≤ retries then
    let a := attempt + 1
    match env a with
    | .ok payload => { outcome := .ok payload, attempts := 1, sleeps := [] }
    | .httpErr st stext pm =>
        let err := normalizeError
          (.jsObject none .notError (.pString (httpErrMessage st stext pm)))
          { url := some url, status := some st }
        if a ≤ retries ∧ err.retriable then
          let rest := requestJsonLoop env retries retryDelayMs url (some (.normalized err)) a
          { outcome := rest.outcome, attempts := rest.attempts + 1,
            sleeps := retryDelayMs * a :: rest.sleeps }
        else
          { outcome := .error err, attempts := 1, sleeps := [] }
    | .raised e =>
        let normalized := normalizeError e { url := some url, status := none }
        if a ≤ retries ∧ (normalized.retriable ∨ normalized.code = .NETWORK) then
          let rest := requestJsonLoop env retries retryDelayMs url (some (.raw e)) a
          { outcome := rest.outcome, attempts := rest.attempts + 1,
            sleeps := retryDelayMs * a :: rest.sleeps }
        else
          { outcome := .error normalized, attempts := 1, sleeps := [] }
  else
    { outcome := .error (normalizeError ((lastErr.map ThrownVal.toRawErr).getD .jsOther)
        { url := some url, status := none }),
      attempts := 0, sleeps := [] }
  termination_by retries + 1 - attempt
  decreasing_by all_goals omega

/-- Entry point of the retry loop: `attempt` starts at 0, `lastErr` unset. -/
def requestJson (env : Nat → FetchOutcome) (retries retryDelayMs : Nat) (url : String) : ReqResult :=
  requestJsonLoop env retries retryDelayMs url none 0

/-- The `NormalizedError` the non-2xx branch builds (name for the inline
`normalizeError` call of the source). -/
def httpNormalized (st : Nat) (stext : String) (pm : Option String) (url : String) :
    NormalizedError :=
  normalizeError (.jsObject none .notError (.pString (httpErrMessage st stext pm)))
    { url := some url, status := some st }

/-- The `NormalizedError` the catch block derives from a raw thrown error. -/
def raisedNormalized (e : RawErr) (url : String) : NormalizedError :=
  normalizeError e { url := some url, status := none }

/-- Whether the fetch outcome of attempt `k` is a failure. -/
def attemptFailed (env : Nat → FetchOutcome) (k : Nat) : Bool :=
  match env k with
  | .ok _ => false
  | _ => true

/-- Whether a failed attempt satisfies the source's retry condition: a non-2xx
response with a retriable status, or a thrown error whose normalization is
retriable or classified `NETWORK`. -/
def attemptRetriable (env : Nat → FetchOutcome) (url : String) (k : Nat) : Bool :=
  match env k with
  | .ok _ => false
  | .httpErr st _ _ => decide (500 ≤ st) || decide (st = 429)
  | .raised e =>
      let n := normalizeError e { url := some url, status := none }
      n.retriable || n.code == .NETWORK

/-- Whether a failed attempt's normalized error falls in the retriable code
set named by the specification: `HTTP` with status ≥ 500 or 429, `NETWORK`,
or `TIMEOUT`. -/
def attemptRetriableSpec (env : Nat → FetchOutcome) (url : String) (k : Nat) : Bool :=
  match env k with
  | .ok _ => false
  | .httpErr st _ _ => decide (500 ≤ st) || decide (st = 429)
  | .raised e =>
      let n := normalizeError e { url := some url, status := none }
      n.code == .NETWORK || n.code == .TIMEOUT

/-! ## WebSocket client (src/frontend_portal/src/services/wsClient.js)

The client's mutable locals (`ws`, `connected`, `shouldReconnect`,
`reconnectAttempt`, `reconnectTimer`) become a state record.  Sockets ever
created are kept in a list indexed by creation order, each with its readyState
phase; `ws` holds the index of the current socket.  Pending reconnect timers
are kept as a list of (timer id, delay) pairs so that "at most one timer is
pending" is a provable property, not one baked into the state type; the
`reconnectTimer` variable holds the id of the timer it references. -/

/-- ReadyState phase of one WebSocket object.  `closing` is entered when
`close()` is called on a live socket; `closed` is terminal and is when the
socket's `onclose` handler has fired. -/
inductive SockPhase where
  | connecting
  | opened
  | closing
  | closed
deriving DecidableEq, Repr

/-- Construction options of `createWebSocketClient`, after defaulting:
trimmed url, `reconnect !== false`, base and max reconnect delays. -/
structure WsConfig where
  url : String
  reconnect : Bool
  baseDelay : Nat
  maxDelay : Nat
deriving DecidableEq, Repr

/-- State of one WebSocket client instance. -/
structure WsState where
  ws : Option Nat
  sockets : List SockPhase
  connected : Bool
  shouldReconnect : Bool
  reconnectAttempt : Nat
  pendingReconnects : List (Nat × Nat)
  reconnectTimer : Option Nat
  nextTimerId : Nat
  listeners : List Nat
  nextListenerId : Nat
deriving DecidableEq, Repr

/-- Initial state of a freshly created client. -/
def wsInit (cfg : WsConfig) : WsState :=
  { ws := none, sockets := [], connected := false, shouldReconnect := cfg.reconnect,
    reconnectAttempt := 0, pendingReconnects := [], reconnectTimer := none, nextTimerId := 0,
    listeners := [], nextListenerId := 0 }

/-- Embedding of `subscribe(cb)`: register a fresh listener (each call passes
a distinct closure) and hand back its identity, which the returned disposer
captures. -/
def wsSubscribe (s : WsState) : WsState × Nat :=
  ({ s with listeners := s.listeners ++ [s.nextListenerId],
            nextListenerId := s.nextListenerId + 1 }, s.nextListenerId)

/-- Embedding of the disposer returned by `subscribe`: delete that one
listener from the set. -/
def wsUnsubscribeListener (s : WsState) (id : Nat) : WsState :=
  { s with listeners := s.listeners.filter (fun l => l ≠ id) }

/-- Phase of socket `i`, `closed` when out of range. -/
def WsState.phase (s : WsState) (i : Nat) : SockPhase :=
  s.sockets.getD i .closed

/-- Whether the current socket exists and is `OPEN` or `CONNECTING`
(the early-return guard of `connect`). -/
def WsState.currentBusy (s : WsState) : Bool :=
  match s.ws with
  | none => false
  | some i => s.phase i == .opened || s.phase i == .connecting

/-- Embedding of `scheduleReconnect()`: do nothing unless auto-reconnect is
enabled and no timer is pending; otherwise bump the attempt counter and start
a timer for `min(maxDelay, baseDelay * (1 + reconnectAttempt))`. -/
def scheduleReconnect (cfg : WsConfig) (s : WsState) : WsState :=
  if !s.shouldReconnect then s
  else if s.reconnectTimer.isSome then s
  else
    let att := s.reconnectAttempt + 1
    let delay := min cfg.maxDelay (cfg.baseDelay * (1 + att))
    { s with reconnectAttempt := att,
             pendingReconnects := s.pendingReconnects ++ [(s.nextTimerId, delay)],
             reconnectTimer := some s.nextTimerId,
             nextTimerId := s.nextTimerId + 1 }

/-- Embedding of `clearReconnectTimer()`: cancel the timer the
`reconnectTimer` variable references, if any. -/
def clearReconnectTimer (s : WsState) : WsState :=
  match s.reconnectTimer with
  | none => s
  | some tid =>
      { s with pendingReconnects := s.pendingReconnects.filter (fun td => td.1 ≠ tid),
               reconnectTimer := none }

/-- Replace the phase of socket `i`. -/
def WsState.setPhase (s : WsState) (i : Nat) (p : SockPhase) : WsState :=
  { s with sockets := s.sockets.set i p }

/-- Embedding of `connect()`.  `creationOk` tells whether `new WebSocket(url)`
succeeds; on failure the source emits an error event and schedules a
reconnect.  On success a fresh `CONNECTING` socket becomes current. -/
def wsConnect (cfg : WsConfig) (s : WsState) (creationOk : Bool) : WsState :=
  if cfg.url = "" then s
  else if s.currentBusy then s
  else
    let s1 := clearReconnectTimer s
    if creationOk then
      { s1 with sockets := s1.sockets ++ [.connecting], ws := some s1.sockets.length }
    else
      scheduleReconnect cfg s1

/-- Embedding of `close()`: disable auto-reconnect, cancel any pending
reconnect timer, close the current socket (a no-op on an already closed one)
and drop the handle. -/
def wsClose (s : WsState) : WsState :=
  let s1 := { s with shouldReconnect := false }
  let s2 := clearReconnectTimer s1
  let s3 :=
    match s2.ws with
    | some i =>
        if s2.phase i == SockPhase.connecting || s2.phase i == SockPhase.opened then
          s2.setPhase i .closing
        else s2
    | none => s2
  { s3 with ws := none, connected := false }

/-- Embedding of the `onopen` handler of socket `i`, which can only fire while
that socket is `CONNECTING`: mark it open, set `connected`, reset the
reconnect attempt counter. -/
def wsSockOpen (s : WsState) (i : Nat) : WsState :=
  if s.phase i == .connecting then
    { s.setPhase i .opened with connected := true, reconnectAttempt := 0 }
  else s

/-- Embedding of the `onclose` handler of socket `i`, firing once on any
not-yet-closed socket: mark it closed, clear `connected`, and schedule a
reconnect when auto-reconnect is still enabled. -/
def wsSockClose (cfg : WsConfig) (s : WsState) (i : Nat) : WsState :=
  if s.phase i == .closed || decide (s.sockets.length ≤ i) then s
  else
    let s1 := { s.setPhase i .closed with connected := false }
    if s1.shouldReconnect then scheduleReconnect cfg s1 else s1

/-- Firing of pending reconnect timer `tid`: the timer leaves the pending set,
the callback nulls the `reconnectTimer` variable and calls `connect()`. -/
def wsTimerFire (cfg : WsConfig) (s : WsState) (tid : Nat) (creationOk : Bool) : WsState :=
  if (s.pendingReconnects.filter (fun td => td.1 = tid)).isEmpty then s
  else
    let s1 := { s with pendingReconnects := s.pendingReconnects.filter (fun td => td.1 ≠ tid),
                       reconnectTimer := none }
    wsConnect cfg s1 creationOk

/-- Events a WebSocket client instance can experience: the two public calls,
the socket callbacks, and a reconnect timer firing. -/
inductive WsEv where
  | connect (creationOk : Bool)
  | close
  | sockOpen (i : Nat)
  | sockClose (i : Nat)
  | timerFire (tid : Nat) (creationOk : Bool)
deriving DecidableEq, Repr

/-- One step of the client. -/
def wsStep (cfg : WsConfig) (s : WsState) : WsEv → WsState
  | .connect creationOk => wsConnect cfg s creationOk
  | .close => wsClose s
  | .sockOpen i => wsSockOpen s i
  | .sockClose i => wsSockClose cfg s i
  | .timerFire tid creationOk => wsTimerFire cfg s tid creationOk

/-- Run a list of events. -/
def wsRun (cfg : WsConfig) (s : WsState) (evs : List WsEv) : WsState :=
  evs.foldl (wsStep cfg) s

/-- States reachable from the fresh client. -/
def WsReachable (cfg : WsConfig) (s : WsState) : Prop :=
  ∃ evs, wsRun cfg (wsInit cfg) evs = s

/-- Number of sockets of the instance currently `CONNECTING` or `OPEN`. -/
def WsState.activeSockets (s : WsState) : Nat :=
  (s.sockets.filter (fun p => p == .connecting || p == .opened)).length

/-- Whether an event is a `connect()` call. -/
def WsEv.isConnectCall : WsEv → Bool
  | .connect _ => true
  | _ => false

/-! ## Configuration resolver (src/frontend_portal/src/config/index.js) -/

/-- Result values of `JSON.parse`. -/
inductive JsonVal where
  | jnull
  | jbool (b : Bool)
  | jnum (n : Int)
  | jstr (s : String)
  | jarr (elems : List JsonVal)
  | jobj (fields : List (String × JsonVal))

/-- Truthiness of a parsed JSON value (`Boolean(v)`). -/
def JsonVal.truthy : JsonVal → Bool
  | .jnull => false
  | .jbool b => b
  | .jnum n => decide (n ≠ 0)
  | .jstr s => !s.isEmpty
  | .jarr _ => true
  | .jobj _ => true

/-- Feature flag store: ordered key list plus a string-to-bool map. -/
structure Flags where
  list : List String
  map : List (String × Bool)
deriving DecidableEq, Repr

/-- Assignment `map[k] = b` on a JS object modelled as an ordered association
list: an existing key keeps its position and takes the new value, a new key is
appended. -/
def setEntry (m : List (String × Bool)) (k : String) (b : Bool) : List (String × Bool) :=
  if m.any (fun kv => kv.1 = k) then
    m.map (fun kv => if kv.1 = k then (k, b) else kv)
  else
    m ++ [(k, b)]

/-- Read `map[k]` followed by `Boolean(...)`: a missing key reads as
`undefined`, hence `false`. -/
def lookupFlag (m : List (String × Bool)) (k : String) : Bool :=
  match m.find? (fun kv => kv.1 = k) with
  | some kv => kv.2
  | none => false

/-- Build a JS object from a list of (key, true) pairs
(`Object.fromEntries(list.map(k => [k, true]))`). -/
def fromEntries (l : List (String × Bool)) : List (String × Bool) :=
  l.foldl (fun m kv => setEntry m kv.1 kv.2) []

/-- The comma-list branch of `parseFeatureFlags`: split on commas, trim,
drop empties, map every surviving name to `true`. -/
def commaFlags (cleaned : String) : Flags :=
  let list := ((jsSplitOnComma cleaned).map jsTrim).filter (fun s => !s.isEmpty)
  { list := list, map := fromEntries (list.map (fun k => (k, true))) }

/-- The JSON-array branch: keep the string elements, trim them, drop empties,
map each to `true`. -/
def arrayFlags (elems : List JsonVal) : Flags :=
  let list := (elems.filterMap (fun v => match v with | .jstr s => some s | _ => none)
    |>.map jsTrim).filter (fun s => !s.isEmpty)
  { list := list, map := fromEntries (list.map (fun k => (k, true))) }

/-- The JSON-object branch: coerce every field value to a boolean, keep the
keys whose value ended up `true`. -/
def objectFlags (fields : List (String × JsonVal)) : Flags :=
  let map := fields.foldl (fun m kv => setEntry m kv.1 kv.2.truthy) []
  { list := (map.map (fun kv => kv.1)).filter (fun k => lookupFlag map k), map := map }

/-- Shallow embedding of `parseFeatureFlags(raw)`.  `jsonParse` stands for the
host `JSON.parse`, an oracle that either returns a parsed value or fails (the
`catch` arm); a failed parse — and a parse to a primitive, which the source's
`if` chain lets fall through — ends in the comma-list branch. -/
def parseFeatureFlags (jsonParse : String → Except String JsonVal)
    (raw : Option String) : Flags :=
  let cleaned := jsTrim (raw.getD "")
  if cleaned.isEmpty then { list := [], map := [] }
  else if jsStartsWithChar cleaned '[' || jsStartsWithChar cleaned (Char.ofNat 123) then
    match jsonParse cleaned with
    | .ok (.jarr elems) => arrayFlags elems
    | .ok (.jobj fields) => objectFlags fields
    | .ok _ => commaFlags cleaned
    | .error _ => commaFlags cleaned
  else
    commaFlags cleaned

/-- Translation of `parseFeatureFlags` into the exception-propagating model:
the `JSON.parse` call happens inside `tryCatch`, whose handler falls through
to comma parsing, exactly as the source's `try/catch` does.  Everything the
function could raise is caught here; the claim that no parse exception
escapes is the statement that this computation always returns `ok`. -/
def parseFeatureFlagsE (jsonParse : String → Except String JsonVal)
    (raw : Option String) : Except String Flags :=
  let cleaned := jsTrim (raw.getD "")
  if cleaned.isEmpty then pure { list := [], map := [] }
  else if jsStartsWithChar cleaned '[' || jsStartsWithChar cleaned (Char.ofNat 123) then
    tryCatch
      (do
        let parsed ← jsonParse cleaned
        match parsed with
        | .jarr elems => pure (some (arrayFlags elems))
        | .jobj fields => pure (some (objectFlags fields))
        | _ => pure none)
      (fun _ => pure none)
    >>= fun attempt =>
      match attempt with
      | some f => pure f
      | none => pure (commaFlags cleaned)
  else
    pure (commaFlags cleaned)

/-- Runtime environment names (`resolveNodeEnv` never yields anything else). -/
inductive NodeEnv where
  | development
  | test
  | production
deriving DecidableEq, Repr

/-- The slice of the runtime config that provider selection reads. -/
structure AppConfig where
  nodeEnv : NodeEnv
  featureMap : List (String × Bool)
deriving DecidableEq, Repr

/-- Embedding of `isFeatureEnabled(flagName)`: false on an empty name, else
the boolean coercion of the flag-map entry. -/
def isFeatureEnabled (cfg : AppConfig) (flagName : String) : Bool :=
  if flagName.isEmpty then false
  else lookupFlag cfg.featureMap flagName

/-! ## Data service facade (src/unnamed/part_007, `resolveDataMode`, lines 70-74) -/

/-- The two provider modes. -/
inductive DataMode where
  | mock
  | live
deriving DecidableEq, Repr

/-- Embedding of `resolveDataMode()`: forced mock flag, else forced live flag,
else the environment default. -/
def resolveDataMode (cfg : AppConfig) : DataMode :=
  if isFeatureEnabled cfg "data.mock" then .mock
  else if isFeatureEnabled cfg "data.live" then .live
  else if cfg.nodeEnv = .production then .live else .mock

/-! ## Mock provider (src/frontend_portal/src/services/mockProvider.js)

Timestamps (`Date.now()`, ISO strings) are embedded as integer milliseconds;
JS numbers in seed data and jitter arithmetic are embedded as rationals.
Module-load time is the parameter `now0` of the seed tables. -/

/-- Device status values. -/
inductive DevStatus where
  | online
  | offline
  | driving
  | idle
deriving DecidableEq, Repr

/-- A tracked device record. -/
structure Device where
  id : String
  name : String
  regionId : String
  status : DevStatus
  lastSeenAt : Int
  lat : Rat
  lng : Rat
  speedKph : Rat
  rsrpDbm : Rat
  sinrDb : Rat
  routeId : Option String
deriving DecidableEq, Repr

/-- A region record. -/
structure Region where
  id : String
  name : String
  code : String
deriving DecidableEq, Repr

/-- The analytics summary shape. -/
structure AnalyticsSummary where
  period : String
  generatedAt : Int
  totalUploads : Nat
  activeDevices : Nat
  avgDownlinkMbps : Rat
  avgUplinkMbps : Rat
  p95LatencyMs : Nat
  coverageScore : Rat
deriving DecidableEq, Repr

/-- Segment quality classification. -/
inductive SegStatus where
  | good
  | warning
  | bad
deriving DecidableEq, Repr

/-- One route segment. -/
structure RouteSegment where
  segmentId : String
  name : String
  percent : Nat
  status : SegStatus
deriving DecidableEq, Repr

/-- Route progress snapshot. -/
structure RouteProgress where
  routeId : String
  routeName : String
  regionId : String
  updatedAt : Int
  percentComplete : Nat
  segments : List RouteSegment
deriving DecidableEq, Repr

/-- Processing state of an upload record. -/
inductive UploadStatus where
  | queued
  | processing
  | complete
  | failed
deriving DecidableEq, Repr

/-- A recent-upload record. -/
structure RecentUpload where
  id : String
  filename : String
  uploadedAt : Int
  status : UploadStatus
  warnings : Nat
deriving DecidableEq, Repr

/-- Embedding of `isoMinutesAgo(mins)` evaluated at time `now`. -/
def isoMinutesAgo (now : Int) (mins : Int) : Int :=
  now - mins * 60000

/-- Embedding of `clamp(n, a, b)`. -/
def clamp (n a b : Rat) : Rat :=
  max a (min b n)

/-- The `REGIONS` seed table. -/
def REGIONS : List Region :=
  [ { id := "r-na", name := "North America", code := "NA" },
    { id := "r-eu", name := "Europe", code := "EU" },
    { id := "r-apac", name := "APAC", code := "APAC" } ]

/-- The `DEVICES_SEED` table, built at module-load time `now0`. -/
def DEVICES_SEED (now0 : Int) : List Device :=
  [ { id := "dev-001", name := "DriveKit-001", regionId := "r-na", status := .driving,
      lastSeenAt := isoMinutesAgo now0 1, lat := 37.775, lng := -122.418,
      speedKph := 46, rsrpDbm := -92, sinrDb := 18, routeId := some "route-sf-01" },
    { id := "dev-002", name := "DriveKit-002", regionId := "r-na", status := .idle,
      lastSeenAt := isoMinutesAgo now0 4, lat := 37.764, lng := -122.431,
      speedKph := 0, rsrpDbm := -98, sinrDb := 12, routeId := some "route-sf-01" },
    { id := "dev-101", name := "Probe-101", regionId := "r-eu", status := .online,
      lastSeenAt := isoMinutesAgo now0 2, lat := 52.5207, lng := 13.405,
      speedKph := 12, rsrpDbm := -90, sinrDb := 20, routeId := some "route-ber-02" },
    { id := "dev-202", name := "Probe-202", regionId := "r-apac", status := .offline,
      lastSeenAt := isoMinutesAgo now0 37, lat := 35.6762, lng := 139.6503,
      speedKph := 0, rsrpDbm := -110, sinrDb := 2, routeId := some "route-tok-03" } ]

/-- The `ROUTE_PROGRESS` seed, built at module-load time `now0`. -/
def ROUTE_PROGRESS (now0 : Int) : RouteProgress :=
  { routeId := "route-sf-01", routeName := "SF Downtown Loop", regionId := "r-na",
    updatedAt := now0, percentComplete := 62,
    segments :=
      [ { segmentId := "seg-1", name := "Market St", percent := 90, status := .good },
        { segmentId := "seg-2", name := "Embarcadero", percent := 70, status := .warning },
        { segmentId := "seg-3", name := "SoMa", percent := 45, status := .good },
        { segmentId := "seg-4", name := "Mission", percent := 20, status := .bad } ] }

/-- The `RECENT_UPLOADS` seed, built at module-load time `now0`. -/
def RECENT_UPLOADS (now0 : Int) : List RecentUpload :=
  [ { id := "upl-9001", filename := "TEMS_SF_2026-01-02.zip",
      uploadedAt := isoMinutesAgo now0 35, status := .complete, warnings := 2 },
    { id := "upl-9002", filename := "TEMS_BER_2026-01-02.zip",
      uploadedAt := isoMinutesAgo now0 78, status := .processing, warnings := 0 },
    { id := "upl-9003", filename := "TEMS_TOK_2026-01-01.zip",
      uploadedAt := isoMinutesAgo now0 180, status := .failed, warnings := 5 } ]

/-- State of one mock provider instance: the interval handle and subscriber
set of `createMockProvider`, a list of currently running interval timers
(so that "exactly one timer" is provable rather than assumed), a start
counter for the emitter, and the module-level seed tables the frame claim is
about.  Interval ids start at 1 because the source tests the handle for
truthiness and `setInterval` never returns 0. -/
structure MockState where
  intervalId : Option Nat
  activeIntervals : List Nat
  nextIntervalId : Nat
  emitterStarts : Nat
  subs : List Nat
  devicesSeed : List Device
  regions : List Region
  routeProgress : RouteProgress
  recentUploads : List RecentUpload
deriving DecidableEq, Repr

/-- A freshly created mock provider over the module seed built at `now0`. -/
def mockInit (now0 : Int) : MockState :=
  { intervalId := none, activeIntervals := [], nextIntervalId := 1, emitterStarts := 0,
    subs := [], devicesSeed := DEVICES_SEED now0, regions := REGIONS,
    routeProgress := ROUTE_PROGRESS now0, recentUploads := RECENT_UPLOADS now0 }

/-- Embedding of `getDevices()` at time `now`: a fresh copy of the seed with
refreshed `lastSeenAt` for non-offline devices. -/
def mockGetDevices (now : Int) (s : MockState) : List Device × MockState :=
  (s.devicesSeed.map (fun d =>
    { d with lastSeenAt := if d.status = .offline then d.lastSeenAt else isoMinutesAgo now 1 }), s)

/-- Embedding of `getRegions()`: a copy of the region table. -/
def mockGetRegions (s : MockState) : List Region × MockState :=
  (s.regions, s)

/-- Embedding of `getAnalyticsSummary()` at time `now`. -/
def mockGetAnalyticsSummary (now : Int) (s : MockState) : AnalyticsSummary × MockState :=
  ({ period := "last_24h", generatedAt := now, totalUploads := 38,
     activeDevices := (s.devicesSeed.filter (fun d => d.status ≠ .offline)).length,
     avgDownlinkMbps := 412.6, avgUplinkMbps := 58.3, p95LatencyMs := 34,
     coverageScore := 92.4 }, s)

/-- Embedding of `getRouteProgress()` at time `now`: a copy with a fresh
`updatedAt`. -/
def mockGetRouteProgress (now : Int) (s : MockState) : RouteProgress × MockState :=
  ({ s.routeProgress with updatedAt := now }, s)

/-- Result shape of `uploadLogs`. -/
structure UploadResult where
  uploaded : Nat
  recentUploads : List RecentUpload
deriving DecidableEq, Repr

/-- Embedding of `uploadLogs(files)` completing at time `now`: build queued
records for the given file names and return them merged (capped at 8) with the
existing history, which is left untouched. -/
def mockUploadLogs (files : List String) (now : Int) (s : MockState) : UploadResult × MockState :=
  let newItems := files.enum.map (fun p =>
    { id := "upl-" ++ toString (9100 + p.1), filename := p.2, uploadedAt := now,
      status := UploadStatus.queued, warnings := 0 })
  ({ uploaded := files.length, recentUploads := (newItems ++ s.recentUploads).take 8 }, s)

/-- Embedding of `startEmittingUpdates()`: a no-op when the interval handle is
set, otherwise start one interval timer and record it. -/
def startEmittingUpdates (s : MockState) : MockState :=
  match s.intervalId with
  | some _ => s
  | none =>
      { s with intervalId := some s.nextIntervalId,
               activeIntervals := s.activeIntervals ++ [s.nextIntervalId],
               nextIntervalId := s.nextIntervalId + 1,
               emitterStarts := s.emitterStarts + 1 }

/-- Embedding of `stopEmittingUpdates()`: cancel the interval the handle
references, if any. -/
def stopEmittingUpdates (s : MockState) : MockState :=
  match s.intervalId with
  | none => s
  | some tid =>
      { s with activeIntervals := s.activeIntervals.filter (fun t => t ≠ tid),
               intervalId := none }

/-- Embedding of `subscribeToDeviceUpdates(callback)`: add the callback to the
subscriber set and lazily start the emitter. -/
def mockSubscribe (cb : Nat) (s : MockState) : MockState :=
  startEmittingUpdates { s with subs := if cb ∈ s.subs then s.subs else s.subs ++ [cb] }

/-- Embedding of the provider-level `unsubscribe()`: clear the subscriber set
and stop the emitter. -/
def mockUnsubscribe (s : MockState) : MockState :=
  stopEmittingUpdates { s with subs := [] }

/-- The device-update event shape. -/
structure DeviceUpdateEvent where
  device : Device
  ts : Int
deriving DecidableEq, Repr

/-- The jittered copy of a seed device the emitter builds (`next` in the
source); the jitter products drawn from `Math.random()` are parameters. -/
def jitteredDevice (pick : Device) (jlat jlng jspd jrsrp jsinr : Rat) (now : Int) : Device :=
  { pick with
    status := if pick.status = .offline then DevStatus.offline else pick.status,
    lastSeenAt := if pick.status = .offline then pick.lastSeenAt else now,
    lat := clamp (pick.lat + jlat) (-90) 90,
    lng := clamp (pick.lng + jlng) (-180) 180,
    speedKph := if pick.status = .driving then clamp (pick.speedKph + jspd) 0 120 else pick.speedKph,
    rsrpDbm := clamp (pick.rsrpDbm + jrsrp) (-125) (-65),
    sinrDb := clamp (pick.sinrDb + jsinr) (-5) 30 }

/-- One firing of the emitter interval `tid`: only a currently running
interval fires; the event built from a jittered copy of the picked seed device
is delivered to every subscriber, and the state — in particular every seed
table — is left as it was. -/
def mockTick (tid : Nat) (pickIdx : Nat) (jlat jlng jspd jrsrp jsinr : Rat) (now : Int)
    (s : MockState) : List (Nat × DeviceUpdateEvent) × MockState :=
  if tid ∈ s.activeIntervals then
    let pick := s.devicesSeed.getD pickIdx
      { id := "", name := "", regionId := "", status := .offline, lastSeenAt := 0,
        lat := 0, lng := 0, speedKph := 0, rsrpDbm := 0, sinrDb := 0, routeId := none }
    let evt : DeviceUpdateEvent :=
      { device := jitteredDevice pick jlat jlng jspd jrsrp jsinr now, ts := now }
    (s.subs.map (fun cb => (cb, evt)), s)
  else
    ([], s)

/-- Operations a caller (or the timer) can perform on a mock provider
instance; the parameters carry the call time, inputs, and random draws. -/
inductive MockOp where
  | getDevices (now : Int)
  | getRegions
  | getAnalyticsSummary (now : Int)
  | getRouteProgress (now : Int)
  | uploadLogs (files : List String) (now : Int)
  | subscribe (cb : Nat)
  | unsubscribe
  | tick (tid : Nat) (pickIdx : Nat) (jlat jlng jspd jrsrp jsinr : Rat) (now : Int)

/-- Apply one operation to the provider state. -/
def applyMockOp (s : MockState) : MockOp → MockState
  | .getDevices now => (mockGetDevices now s).2
  | .getRegions => (mockGetRegions s).2
  | .getAnalyticsSummary now => (mockGetAnalyticsSummary now s).2
  | .getRouteProgress now => (mockGetRouteProgress now s).2
  | .uploadLogs files now => (mockUploadLogs files now s).2
  | .subscribe cb => mockSubscribe cb s
  | .unsubscribe => mockUnsubscribe s
  | .tick tid pickIdx jlat jlng jspd jrsrp jsinr now =>
      (mockTick tid pickIdx jlat jlng jspd jrsrp jsinr now s).2

/-- Run a list of operations. -/
def mockRun (s : MockState) (ops : List MockOp) : MockState :=
  ops.foldl applyMockOp s

/-! ## Live provider (src/unnamed/part_008, `createLiveProvider`) -/

/-- State of one live provider instance: the underlying WebSocket client and
the `unsubWs` variable holding the disposer of the most recently registered
relay listener. -/
structure LiveState where
  ws : WsState
  unsubWsVar : Option Nat
deriving DecidableEq, Repr

/-- A freshly created live provider. -/
def liveInit (cfg : WsConfig) : LiveState :=
  { ws := wsInit cfg, unsubWsVar := none }

/-- Embedding of the live `subscribeToDeviceUpdates(callback)`: connect the
shared socket, register a relay listener, and overwrite `unsubWs` with its
disposer. -/
def liveSubscribe (cfg : WsConfig) (creationOk : Bool) (s : LiveState) : LiveState :=
  let w1 := wsConnect cfg s.ws creationOk
  let wr := wsSubscribe w1
  { ws := wr.1, unsubWsVar := some wr.2 }

/-- Embedding of the live `unsubscribe()`: invoke the stored disposer (if
any), forget it, and close the WebSocket client. -/
def liveUnsubscribe (s : LiveState) : LiveState :=
  let w1 :=
    match s.unsubWsVar with
    | some id => wsUnsubscribeListener s.ws id
    | none => s.ws
  { ws := wsClose w1, unsubWsVar := none }

/-- Operations on a live provider instance: the two provider calls, plus the
events the underlying client experiences on its own (socket callbacks, timer
firings — callers of the provider never invoke `connect`/`close` directly,
the provider does so inside `subscribeToDeviceUpdates`/`unsubscribe`). -/
inductive LiveOp where
  | subscribe (creationOk : Bool)
  | unsubscribe
  | sockOpen (i : Nat)
  | sockClose (i : Nat)
  | timerFire (tid : Nat) (creationOk : Bool)

/-- Apply one live-provider operation. -/
def applyLiveOp (cfg : WsConfig) (s : LiveState) : LiveOp → LiveState
  | .subscribe creationOk => liveSubscribe cfg creationOk s
  | .unsubscribe => liveUnsubscribe s
  | .sockOpen i => { s with ws := wsSockOpen s.ws i }
  | .sockClose i => { s with ws := wsSockClose cfg s.ws i }
  | .timerFire tid creationOk => { s with ws := wsTimerFire cfg s.ws tid creationOk }

/-- Run a list of live-provider operations. -/
def liveRun (cfg : WsConfig) (s : LiveState) (ops : List LiveOp) : LiveState :=
  ops.foldl (applyLiveOp cfg) s

/-- Live-provider states reachable from a fresh instance. -/
def LiveReachable (cfg : WsConfig) (s : LiveState) : Prop :=
  ∃ ops, liveRun cfg (liveInit cfg) ops = s

/-! ## Invariants and auxiliary predicates used by the theorems -/

/-- Structural invariant of the WebSocket client state: (1) every socket that
is `CONNECTING` or `OPEN` is the current one, (2) the `reconnectTimer`
variable references exactly the pending timers (none, or the single one it
holds), (3) the current-socket index is in range. -/
def WsInv (s : WsState) : Prop :=
  (∀ i, i < s.sockets.length → (s.phase i = .connecting ∨ s.phase i = .opened) → s.ws = some i)
  ∧ (match s.reconnectTimer with
     | none => s.pendingReconnects = []
     | some tid => ∃ d, s.pendingReconnects = [(tid, d)])
  ∧ (∀ i, s.ws = some i → i < s.sockets.length)

/-- Quiescence after `close()`: auto-reconnect disabled, no reconnect timer
pending, and no socket connecting or open.  This is the state predicate that
persists under every event except a fresh `connect()` call. -/
def wsQuiescent (s : WsState) : Prop :=
  s.shouldReconnect = false
  ∧ s.reconnectTimer = none
  ∧ s.pendingReconnects = []
  ∧ ∀ i, s.phase i ≠ .connecting ∧ s.phase i ≠ .opened

/-- Delivery of an incoming frame on socket `i`: only an open socket delivers
messages, and they go to every registered listener. -/
def wsMessageDeliver (s : WsState) (i : Nat) : List Nat :=
  if s.phase i = .opened then s.listeners else []

/-- Structural invariant of the mock provider state: the running interval
timers are exactly the one the `intervalId` handle references. -/
def MockInv (s : MockState) : Prop :=
  s.activeIntervals = (match s.intervalId with | none => [] | some t => [t])

/-! # Theorems -/

/-- C6: `resolveDataMode()` returns mock when the `data.mock` flag is
enabled; otherwise live when the `data.live` flag is enabled; otherwise live
exactly when the environment is production and mock for every other
environment; in particular with no flags set it yields live under production
and mock under development. -/
theorem resolveDataMode_resolution_order (cfg : AppConfig) :
    (isFeatureEnabled cfg "data.mock" = true → resolveDataMode cfg = .mock)
    ∧ (isFeatureEnabled cfg "data.mock" = false → isFeatureEnabled cfg "data.live" = true →
        resolveDataMode cfg = .live)
    ∧ (isFeatureEnabled cfg "data.mock" = false → isFeatureEnabled cfg "data.live" = false →
        (cfg.nodeEnv = .production → resolveDataMode cfg = .live)
        ∧ (cfg.nodeEnv ≠ .production → resolveDataMode cfg = .mock))
    ∧ resolveDataMode { nodeEnv := .production, featureMap := [] } = .live
    ∧ resolveDataMode { nodeEnv := .development, featureMap := [] } = .mock := by
  refine ⟨?_, ?_, ?_, by decide, by decide⟩
  · intro h1
    simp [resolveDataMode, h1]
  · intro h1 h2
    simp [resolveDataMode, h1, h2]
  · intro h1 h2
    constructor
    · intro hp
      simp [resolveDataMode, h1, h2, hp]
    · intro hp
      simp [resolveDataMode, h1, h2, hp]

/-- Witness for the resolution-order theorem at a concrete configuration. -/
theorem resolveDataMode_resolution_order_witness :
    resolveDataMode { nodeEnv := .production, featureMap := [("data.mock", true)] } = .mock :=
  (resolveDataMode_resolution_order
    { nodeEnv := .production, featureMap := [("data.mock", true)] }).1 (by decide)

/-- C2: `normalizeError` classifies by first match in the fixed order: abort
name, HTTP status from context, timeout message, fetch `TypeError`, unknown —
with the stated codes and retriability flags. -/
theorem normalizeError_classification (err : RawErr) (ctx : ErrContext) :
    (err.abortNamed = true →
      (normalizeError err ctx).code = .ABORTED ∧ (normalizeError err ctx).retriable = false)
    ∧ (err.abortNamed = false → ∀ st, ctx.status = some st →
        (normalizeError err ctx).code = .HTTP
        ∧ ((normalizeError err ctx).retriable = true ↔ (500 ≤ st ∨ st = 429)))
    ∧ (err.abortNamed = false → ctx.status = none → timeoutMsg err.jsMessage = true →
        (normalizeError err ctx).code = .TIMEOUT ∧ (normalizeError err ctx).retriable = true)
    ∧ (err.abortNamed = false → ctx.status = none → timeoutMsg err.jsMessage = false →
        err.isTypeErr = true →
        (normalizeError err ctx).code = .NETWORK ∧ (normalizeError err ctx).retriable = true)
    ∧ (err.abortNamed = false → ctx.status = none → timeoutMsg err.jsMessage = false →
        err.isTypeErr = false →
        (normalizeError err ctx).code = .UNKNOWN ∧ (normalizeError err ctx).retriable = false) := by
  obtain ⟨u, st⟩ := ctx
  refine ⟨?_, ?_, ?_, ?_, ?_⟩
  · intro h1
    simp [normalizeError, h1]
  · intro h1 st' hst
    simp only at hst
    subst hst
    constructor
    · simp [normalizeError, h1]
    · simp [normalizeError, h1]
  · intro h1 hst h2
    simp only at hst
    subst hst
    simp [normalizeError, h1, h2]
  · intro h1 hst h2 h3
    simp only at hst
    subst hst
    simp [normalizeError, h1, h2, h3]
  · intro h1 hst h2 h3
    simp only at hst
    subst hst
    simp [normalizeError, h1, h2, h3]

/-- Witness for the classification theorem: an abort-named raw error maps to
`ABORTED` and is not retriable. -/
theorem normalizeError_classification_witness :
    (normalizeError (.jsObject (some "AbortError") .notError .pUndefined)
      { url := none, status := none }).code = .ABORTED
    ∧ (normalizeError (.jsObject (some "AbortError") .notError .pUndefined)
      { url := none, status := none }).retriable = false :=
  (normalizeError_classification (.jsObject (some "AbortError") .notError .pUndefined)
    { url := none, status := none }).1 (by decide)

/-- Helper: no single mock-provider operation touches any seed table. -/
theorem applyMockOp_frame (s : MockState) (op : MockOp) :
    (applyMockOp s op).devicesSeed = s.devicesSeed
    ∧ (applyMockOp s op).regions = s.regions
    ∧ (applyMockOp s op).routeProgress = s.routeProgress
    ∧ (applyMockOp s op).recentUploads = s.recentUploads := by
  cases op <;>
    simp only [applyMockOp, mockGetDevices, mockGetRegions, mockGetAnalyticsSummary,
      mockGetRouteProgress, mockUploadLogs, mockSubscribe, mockUnsubscribe,
      startEmittingUpdates, stopEmittingUpdates, mockTick] <;>
    (repeat' split) <;> simp_all

/-- Helper: no sequence of mock-provider operations touches any seed table. -/
theorem mockRun_frame (s : MockState) (ops : List MockOp) :
    (mockRun s ops).devicesSeed = s.devicesSeed
    ∧ (mockRun s ops).regions = s.regions
    ∧ (mockRun s ops).routeProgress = s.routeProgress
    ∧ (mockRun s ops).recentUploads = s.recentUploads := by
  induction ops generalizing s with
  | nil => exact ⟨rfl, rfl, rfl, rfl⟩
  | cons op rest ih =>
      have h1 := applyMockOp_frame s op
      have h2 := ih (applyMockOp s op)
      simp only [mockRun, List.foldl_cons] at *
      exact ⟨h2.1.trans h1.1, h2.2.1.trans h1.2.1,
        h2.2.2.1.trans h1.2.2.1, h2.2.2.2.trans h1.2.2.2⟩

/-- C10: the mock provider never mutates the module-level seed data — after
every sequence of provider operations and emitter ticks, all four seed tables
are exactly as built at module load, so successive reads stay deterministic. -/
theorem mock_seed_tables_immutable (now0 : Int) (ops : List MockOp) :
    (mockRun (mockInit now0) ops).devicesSeed = DEVICES_SEED now0
    ∧ (mockRun (mockInit now0) ops).regions = REGIONS
    ∧ (mockRun (mockInit now0) ops).routeProgress = ROUTE_PROGRESS now0
    ∧ (mockRun (mockInit now0) ops).recentUploads = RECENT_UPLOADS now0 :=
  mockRun_frame (mockInit now0) ops

/-- C9: at any point in a mock provider's lifetime, `getAnalyticsSummary()`
reports `activeDevices` equal to the number of seeded devices whose status is
not offline, and for the shipped seed that number is 3. -/
theorem mock_analytics_active_devices (now0 : Int) (ops : List MockOp) (now : Int) :
    (mockGetAnalyticsSummary now (mockRun (mockInit now0) ops)).1.activeDevices
      = ((DEVICES_SEED now0).filter (fun d => d.status ≠ .offline)).length
    ∧ (mockGetAnalyticsSummary now (mockRun (mockInit now0) ops)).1.activeDevices = 3 := by
  have hseed := (mockRun_frame (mockInit now0) ops).1
  have h1 : (mockGetAnalyticsSummary now (mockRun (mockInit now0) ops)).1.activeDevices
      = ((DEVICES_SEED now0).filter (fun d => d.status ≠ .offline)).length := by
    simp only [mockGetAnalyticsSummary]
    rw [hseed]
    rfl
  refine ⟨h1, h1.trans ?_⟩
  rfl

/-- C7: `parseFeatureFlags` returns a flag store for every input without
letting any parse exception escape (the exception-propagating translation
always returns `ok`), and whenever `JSON.parse` fails it falls back to
comma-separated parsing of the same cleaned string. -/
theorem parseFeatureFlags_failsoft (jp : String → Except String JsonVal) (raw : Option String) :
    parseFeatureFlagsE jp raw = .ok (parseFeatureFlags jp raw)
    ∧ (∀ e, jp (jsTrim (raw.getD "")) = .error e →
        (jsTrim (raw.getD "")).isEmpty = false →
        parseFeatureFlags jp raw = commaFlags (jsTrim (raw.getD ""))) := by
  constructor
  · by_cases hemp : (jsTrim (raw.getD "")).isEmpty
    · simp [parseFeatureFlagsE, parseFeatureFlags, hemp, pure, Except.pure]
    · by_cases hbr : (jsStartsWithChar (jsTrim (raw.getD "")) '['
          || jsStartsWithChar (jsTrim (raw.getD "")) (Char.ofNat 123)) = true
      · rcases hjp : jp (jsTrim (raw.getD "")) with e | v
        · simp [parseFeatureFlagsE, parseFeatureFlags, hemp, hbr, hjp,
            tryCatch, tryCatchThe, MonadExceptOf.tryCatch, Except.tryCatch,
            bind, Except.bind, pure, Except.pure]
        · cases v <;>
            simp [parseFeatureFlagsE, parseFeatureFlags, hemp, hbr, hjp,
              tryCatch, tryCatchThe, MonadExceptOf.tryCatch, Except.tryCatch,
              bind, Except.bind, pure, Except.pure]
      · simp [parseFeatureFlagsE, parseFeatureFlags, hemp, hbr, pure, Except.pure]
  · intro e hjp hemp
    by_cases hbr : (jsStartsWithChar (jsTrim (raw.getD "")) '['
        || jsStartsWithChar (jsTrim (raw.getD "")) (Char.ofNat 123)) = true
    · simp [parseFeatureFlags, hemp, hbr, hjp]
    · simp [parseFeatureFlags, hemp, hbr]

/-- Witness for the fail-soft theorem: a malformed JSON-looking string whose
parse fails falls back to comma parsing. -/
theorem parseFeatureFlags_failsoft_witness :
    parseFeatureFlags (fun _ => .error "SyntaxError") (some "[a,b")
      = commaFlags (jsTrim "[a,b") := by
  have h := (parseFeatureFlags_failsoft (fun _ => .error "SyntaxError") (some "[a,b")).2
    "SyntaxError" rfl (by decide)
  exact h

/-- C8: `normalizeError` is pure and total — over every raw JS value and
context, the throwing-access translation returns `ok`, and the value it
returns is computed by the pure function of the observed raw error shape, so
repeated normalization of the same raw shape yields identical fields and no
exception ever escapes. -/
theorem normalizeError_pure_total (v : JsValue) (ctx : ErrContext) :
    normalizeErrorE v ctx = .ok (normalizeError v.toRawErr ctx) := by
  obtain ⟨u, st⟩ := ctx
  rcases v with _ | _ | b | n | s | ⟨kind, nameF, msgF⟩ <;>
    (try cases kind) <;>
    (try rcases nameF with _ | nv) <;> (try cases nv) <;>
    (try rcases msgF with _ | mv) <;> (try cases mv) <;>
    cases st <;>
    simp [normalizeErrorE, normalizeError, JsValue.truthy, JsValue.isObjectType,
      JsValue.toRawErr, RawErr.abortNamed, RawErr.jsMessage, RawErr.isTypeErr,
      JsValue.instanceOfError, JsValue.instanceOfTypeError, JsValue.toPrim,
      timeoutMsg, JsPrim.truthy, bind, Except.bind, pure, Except.pure,
      jsHasName, jsGetName, jsGetMessage, JsValue.strictEqStr, jsToLowerCase] <;>
    (repeat' split) <;> simp_all

/-- Helper: the loop returns the parsed payload on a successful attempt. -/
theorem requestJsonLoop_ok (env : Nat → FetchOutcome) (retries delayMs : Nat) (url : String)
    (lastErr : Option ThrownVal) (attempt : Nat) (h : attempt ≤ retries) (p : JsValue)
    (henv : env (attempt + 1) = .ok p) :
    requestJsonLoop env retries delayMs url lastErr attempt
      = { outcome := .ok p, attempts := 1, sleeps := [] } := by
  rw [requestJsonLoop]
  simp [h, henv]

/-- Helper: a non-2xx attempt that cannot be retried throws its
`NormalizedError`. -/
theorem requestJsonLoop_http_stop (env : Nat → FetchOutcome) (retries delayMs : Nat)
    (url : String) (lastErr : Option ThrownVal) (attempt : Nat) (h : attempt ≤ retries)
    (st : Nat) (stext : String) (pm : Option String)
    (henv : env (attempt + 1) = .httpErr st stext pm)
    (hng : ¬(attempt + 1 ≤ retries ∧ (httpNormalized st stext pm url).retriable = true)) :
    requestJsonLoop env retries delayMs url lastErr attempt
      = { outcome := .error (httpNormalized st stext pm url), attempts := 1, sleeps := [] } := by
  rw [requestJsonLoop]
  rw [httpNormalized] at hng
  simp [h, henv, httpNormalized, hng]

/-- Helper: a retriable non-2xx attempt with retry budget left sleeps for
`retryDelayMs * attempt` and loops. -/
theorem requestJsonLoop_http_retry (env : Nat → FetchOutcome) (retries delayMs : Nat)
    (url : String) (lastErr : Option ThrownVal) (attempt : Nat) (h : attempt ≤ retries)
    (st : Nat) (stext : String) (pm : Option String)
    (henv : env (attempt + 1) = .httpErr st stext pm)
    (hg : attempt + 1 ≤ retries ∧ (httpNormalized st stext pm url).retriable = true) :
    requestJsonLoop env retries delayMs url lastErr attempt
      = { outcome := (requestJsonLoop env retries delayMs url
            (some (.normalized (httpNormalized st stext pm url))) (attempt + 1)).outcome,
          attempts := (requestJsonLoop env retries delayMs url
            (some (.normalized (httpNormalized st stext pm url))) (attempt + 1)).attempts + 1,
          sleeps := delayMs * (attempt + 1) :: (requestJsonLoop env retries delayMs url
            (some (.normalized (httpNormalized st stext pm url))) (attempt + 1)).sleeps } := by
  rw [requestJsonLoop]
  rw [httpNormalized] at hg
  simp [h, henv, httpNormalized, hg]

/-- Helper: a thrown error that cannot be retried propagates its
normalization. -/
theorem requestJsonLoop_raised_stop (env : Nat → FetchOutcome) (retries delayMs : Nat)
    (url : String) (lastErr : Option ThrownVal) (attempt : Nat) (h : attempt ≤ retries)
    (e : RawErr) (henv : env (attempt + 1) = .raised e)
    (hng : ¬(attempt + 1 ≤ retries ∧ ((raisedNormalized e url).retriable = true
      ∨ (raisedNormalized e url).code = .NETWORK))) :
    requestJsonLoop env retries delayMs url lastErr attempt
      = { outcome := .error (raisedNormalized e url), attempts := 1, sleeps := [] } := by
  rw [requestJsonLoop]
  rw [raisedNormalized] at hng
  simp [h, henv, raisedNormalized, hng]

/-- Helper: a retriably thrown error with retry budget left sleeps and
loops. -/
theorem requestJsonLoop_raised_retry (env : Nat → FetchOutcome) (retries delayMs : Nat)
    (url : String) (lastErr : Option ThrownVal) (attempt : Nat) (h : attempt ≤ retries)
    (e : RawErr) (henv : env (attempt + 1) = .raised e)
    (hg : attempt + 1 ≤ retries ∧ ((raisedNormalized e url).retriable = true
      ∨ (raisedNormalized e url).code = .NETWORK)) :
    requestJsonLoop env retries delayMs url lastErr attempt
      = { outcome := (requestJsonLoop env retries delayMs url
            (some (.raw e)) (attempt + 1)).outcome,
          attempts := (requestJsonLoop env retries delayMs url
            (some (.raw e)) (attempt + 1)).attempts + 1,
          sleeps := delayMs * (attempt + 1) :: (requestJsonLoop env retries delayMs url
            (some (.raw e)) (attempt + 1)).sleeps } := by
  rw [requestJsonLoop]
  rw [raisedNormalized] at hg
  simp [h, henv, raisedNormalized, hg]

/-- Helper: the source's retry test for thrown errors (`retriable` flag or
`NETWORK` code) coincides with membership of the specification's retriable
code set, because `normalizeError` without a status sets `retriable` exactly
on `TIMEOUT` and `NETWORK`. -/
theorem attemptRetriable_eq_spec (env : Nat → FetchOutcome) (url : String) (k : Nat) :
    attemptRetriable env url k = attemptRetriableSpec env url k := by
  rcases henv : env k with p | ⟨st, stext, pm⟩ | e
  · simp [attemptRetriable, attemptRetriableSpec, henv]
  · simp [attemptRetriable, attemptRetriableSpec, henv]
  · simp only [attemptRetriable, attemptRetriableSpec, henv]
    simp only [normalizeError]
    (repeat' split) <;> simp

/-- Helper: full behavioural characterization of the retry loop from any
starting attempt counter, by induction on the remaining retry budget: at
least one and at most `retries + 1 - attempt` attempts are made; every
attempt that was followed by another one failed, had retry budget left and
was retriable; the backoff delays are `delayMs * attemptNumber` in order;
and if every attempt fails the loop throws a `NormalizedError`. -/
theorem requestJsonLoop_spec (env : Nat → FetchOutcome) (retries delayMs : Nat) (url : String) :
    ∀ (f attempt : Nat) (lastErr : Option ThrownVal), retries - attempt ≤ f →
      attempt ≤ retries →
      1 ≤ (requestJsonLoop env retries delayMs url lastErr attempt).attempts
      ∧ attempt + (requestJsonLoop env retries delayMs url lastErr attempt).attempts
          ≤ retries + 1
      ∧ (∀ j, attempt + 1 ≤ j →
          j + 1 ≤ attempt + (requestJsonLoop env retries delayMs url lastErr attempt).attempts →
          j ≤ retries ∧ attemptFailed env j = true ∧ attemptRetriable env url j = true)
      ∧ (requestJsonLoop env retries delayMs url lastErr attempt).sleeps
          = (List.range
              ((requestJsonLoop env retries delayMs url lastErr attempt).attempts - 1)).map
              (fun i => delayMs * (attempt + 1 + i))
      ∧ ((∀ k, attempt + 1 ≤ k → k ≤ retries + 1 → attemptFailed env k = true) →
          ∃ ne, (requestJsonLoop env retries delayMs url lastErr attempt).outcome
            = .error ne) := by
  intro f
  induction f with
  | zero =>
      intro attempt lastErr hf h
      have ha : attempt = retries := by omega
      subst ha
      rcases henv : env (attempt + 1) with p | ⟨st, stext, pm⟩ | e
      · rw [requestJsonLoop_ok env attempt delayMs url lastErr attempt (le_refl _) p henv]
        refine ⟨by simp, by simp, ?_, by simp, ?_⟩
        · intro j hj1 hj2
          simp only at hj2
          omega
        · intro hall
          have hb := hall (attempt + 1) (by omega) (by omega)
          simp [attemptFailed, henv] at hb
      · have hng : ¬(attempt + 1 ≤ attempt
            ∧ (httpNormalized st stext pm url).retriable = true) := by
          intro hc
          omega
        rw [requestJsonLoop_http_stop env attempt delayMs url lastErr attempt (le_refl _)
          st stext pm henv hng]
        refine ⟨by simp, by simp, ?_, by simp, ?_⟩
        · intro j hj1 hj2
          simp only at hj2
          omega
        · intro _
          exact ⟨_, rfl⟩
      · have hng : ¬(attempt + 1 ≤ attempt ∧ ((raisedNormalized e url).retriable = true
            ∨ (raisedNormalized e url).code = .NETWORK)) := by
          intro hc
          omega
        rw [requestJsonLoop_raised_stop env attempt delayMs url lastErr attempt (le_refl _)
          e henv hng]
        refine ⟨by simp, by simp, ?_, by simp, ?_⟩
        · intro j hj1 hj2
          simp only at hj2
          omega
        · intro _
          exact ⟨_, rfl⟩
  | succ n ih =>
      intro attempt lastErr hf h
      rcases henv : env (attempt + 1) with p | ⟨st, stext, pm⟩ | e
      · rw [requestJsonLoop_ok env retries delayMs url lastErr attempt h p henv]
        refine ⟨by simp, by simpa using by omega, ?_, by simp, ?_⟩
        · intro j hj1 hj2
          simp only at hj2
          omega
        · intro hall
          have hb := hall (attempt + 1) (by omega) (by omega)
          simp [attemptFailed, henv] at hb
      · by_cases hg : attempt + 1 ≤ retries ∧ (httpNormalized st stext pm url).retriable = true
        · rw [requestJsonLoop_http_retry env retries delayMs url lastErr attempt h
            st stext pm henv hg]
          obtain ⟨ih1, ih2, ih3, ih4, ih5⟩ :=
            ih (attempt + 1) (some (.normalized (httpNormalized st stext pm url)))
              (by omega) hg.1
          refine ⟨by simp, by simpa using by omega, ?_, ?_, ?_⟩
          · intro j hj1 hj2
            simp only at hj2
            rcases Nat.eq_or_lt_of_le hj1 with hj | hj
            · refine ⟨by omega, ?_, ?_⟩
              · simp [attemptFailed, ← hj, henv]
              · have h2 := hg.2
                simp [httpNormalized, normalizeError, RawErr.abortNamed] at h2
                simp [attemptRetriable, ← hj, henv]
                tauto
            · exact ih3 j (by omega) (by omega)
          · simp only
            obtain ⟨m, hm⟩ : ∃ m, (requestJsonLoop env retries delayMs url
                (some (.normalized (httpNormalized st stext pm url)))
                (attempt + 1)).attempts = m + 1 :=
              ⟨(requestJsonLoop env retries delayMs url
                (some (.normalized (httpNormalized st stext pm url)))
                (attempt + 1)).attempts - 1, by omega⟩
            rw [ih4, hm]
            simp only [Nat.add_sub_cancel]
            rw [List.range_succ_eq_map]
            simp only [List.map_cons, List.map_map]
            have hfg : ((fun i => delayMs * (attempt + 1 + i)) ∘ Nat.succ)
                = (fun i => delayMs * (attempt + 1 + 1 + i)) := by
              funext i
              simp only [Function.comp, Nat.succ_eq_add_one]
              ring
            rw [hfg]
          · intro hall
            obtain ⟨ne, hne⟩ := ih5 (fun k hk1 hk2 => hall k (by omega) hk2)
            exact ⟨ne, by simpa using hne⟩
        · rw [requestJsonLoop_http_stop env retries delayMs url lastErr attempt h
            st stext pm henv hg]
          refine ⟨by simp, by simpa using by omega, ?_, by simp, ?_⟩
          · intro j hj1 hj2
            simp only at hj2
            omega
          · intro _
            exact ⟨_, rfl⟩
      · by_cases hg : attempt + 1 ≤ retries ∧ ((raisedNormalized e url).retriable = true
            ∨ (raisedNormalized e url).code = .NETWORK)
        · rw [requestJsonLoop_raised_retry env retries delayMs url lastErr attempt h
            e henv hg]
          obtain ⟨ih1, ih2, ih3, ih4, ih5⟩ :=
            ih (attempt + 1) (some (.raw e)) (by omega) hg.1
          refine ⟨by simp, by simpa using by omega, ?_, ?_, ?_⟩
          · intro j hj1 hj2
            simp only at hj2
            rcases Nat.eq_or_lt_of_le hj1 with hj | hj
            · refine ⟨by omega, ?_, ?_⟩
              · simp [attemptFailed, ← hj, henv]
              · have h2 := hg.2
                simp only [raisedNormalized] at h2
                simp [attemptRetriable, ← hj, henv]
                tauto
            · exact ih3 j (by omega) (by omega)
          · simp only
            obtain ⟨m, hm⟩ : ∃ m, (requestJsonLoop env retries delayMs url
                (some (.raw e)) (attempt + 1)).attempts = m + 1 :=
              ⟨(requestJsonLoop env retries delayMs url
                (some (.raw e)) (attempt + 1)).attempts - 1, by omega⟩
            rw [ih4, hm]
            simp only [Nat.add_sub_cancel]
            rw [List.range_succ_eq_map]
            simp only [List.map_cons, List.map_map]
            have hfg : ((fun i => delayMs * (attempt + 1 + i)) ∘ Nat.succ)
                = (fun i => delayMs * (attempt + 1 + 1 + i)) := by
              funext i
              simp only [Function.comp, Nat.succ_eq_add_one]
              ring
            rw [hfg]
          · intro hall
            obtain ⟨ne, hne⟩ := ih5 (fun k hk1 hk2 => hall k (by omega) hk2)
            exact ⟨ne, by simpa using hne⟩
        · rw [requestJsonLoop_raised_stop env retries delayMs url lastErr attempt h
            e henv hg]
          refine ⟨by simp, by simpa using by omega, ?_, by simp, ?_⟩
          · intro j hj1 hj2
            simp only at hj2
            omega
          · intro _
            exact ⟨_, rfl⟩

/-- C1: retry policy of `requestJson` — a failed attempt is retried only
while the attempt number is at most `retries` and the normalized error is
retriable, where the source's retry test coincides with the specification's
retriable code set (`HTTP` 5xx/429, `NETWORK`, `TIMEOUT`); the delay slept
after failed attempt `k` is `retryDelayMs * k` (linear backoff); a call whose
first attempt fails non-retriably makes exactly one attempt; a call whose
first attempt fails retriably with `retries ≥ 1` makes at least two attempts,
the second scheduled `retryDelayMs * 1` after the first; and when every
attempt fails the `NormalizedError` propagates to the caller. -/
theorem requestJson_retry_policy (env : Nat → FetchOutcome) (retries delayMs : Nat)
    (url : String) :
    (1 ≤ (requestJson env retries delayMs url).attempts
      ∧ (requestJson env retries delayMs url).attempts ≤ retries + 1)
    ∧ (∀ j, 1 ≤ j → j + 1 ≤ (requestJson env retries delayMs url).attempts →
        j ≤ retries ∧ attemptFailed env j = true ∧ attemptRetriable env url j = true)
    ∧ ((requestJson env retries delayMs url).sleeps
        = (List.range ((requestJson env retries delayMs url).attempts - 1)).map
            (fun i => delayMs * (1 + i)))
    ∧ (∀ k, attemptRetriable env url k = attemptRetriableSpec env url k)
    ∧ (attemptFailed env 1 = true → attemptRetriable env url 1 = false →
        (requestJson env retries delayMs url).attempts = 1)
    ∧ (1 ≤ retries → attemptFailed env 1 = true → attemptRetriable env url 1 = true →
        2 ≤ (requestJson env retries delayMs url).attempts
        ∧ (requestJson env retries delayMs url).sleeps.head? = some (delayMs * 1))
    ∧ ((∀ k, 1 ≤ k → k ≤ retries + 1 → attemptFailed env k = true) →
        ∃ ne, (requestJson env retries delayMs url).outcome = .error ne) := by
  obtain ⟨s1, s2, s3, s4, s5⟩ :=
    requestJsonLoop_spec env retries delayMs url retries 0 none (by omega) (Nat.zero_le _)
  replace s1 : 1 ≤ (requestJson env retries delayMs url).attempts := s1
  replace s2 : (requestJson env retries delayMs url).attempts ≤ retries + 1 := by
    simpa using s2
  replace s3 : ∀ j, 1 ≤ j → j + 1 ≤ (requestJson env retries delayMs url).attempts →
      j ≤ retries ∧ attemptFailed env j = true ∧ attemptRetriable env url j = true := by
    simpa using s3
  replace s4 : (requestJson env retries delayMs url).sleeps
      = (List.range ((requestJson env retries delayMs url).attempts - 1)).map
          (fun i => delayMs * (1 + i)) := by
    simpa using s4
  replace s5 : (∀ k, 1 ≤ k → k ≤ retries + 1 → attemptFailed env k = true) →
      ∃ ne, (requestJson env retries delayMs url).outcome = .error ne := by
    simpa using s5
  refine ⟨⟨s1, s2⟩, s3, s4, attemptRetriable_eq_spec env url, ?_, ?_, s5⟩
  · intro hf hr
    by_contra hne
    have h3 := s3 1 (by omega) (by omega)
    rw [hr] at h3
    simp at h3
  · intro hr1 hf hrt
    rcases henv : env 1 with p | ⟨st, stext, pm⟩ | e
    · simp [attemptFailed, henv] at hf
    · have hR : (httpNormalized st stext pm url).retriable = true := by
        have := hrt
        simp only [attemptRetriable, henv] at this
        simp [httpNormalized, normalizeError, RawErr.abortNamed]
        simpa using this
      have step := requestJsonLoop_http_retry env retries delayMs url none 0
        (Nat.zero_le _) st stext pm henv ⟨by omega, hR⟩
      obtain ⟨r1, _, _, _, _⟩ :=
        requestJsonLoop_spec env retries delayMs url retries 1
          (some (.normalized (httpNormalized st stext pm url))) (by omega) hr1
      constructor
      · simp only [requestJson]
        rw [step]
        simp
        omega
      · simp only [requestJson]
        rw [step]
        simp
    · have hR : (raisedNormalized e url).retriable = true
          ∨ (raisedNormalized e url).code = .NETWORK := by
        have := hrt
        simp only [attemptRetriable, henv, raisedNormalized] at this ⊢
        simpa using this
      have step := requestJsonLoop_raised_retry env retries delayMs url none 0
        (Nat.zero_le _) e henv ⟨by omega, hR⟩
      obtain ⟨r1, _, _, _, _⟩ :=
        requestJsonLoop_spec env retries delayMs url retries 1
          (some (.raw e)) (by omega) hr1
      constructor
      · simp only [requestJson]
        rw [step]
        simp
        omega
      · simp only [requestJson]
        rw [step]
        simp

/-- Witness for the retry-policy theorem: with one retry configured and the
first attempt failing with HTTP 500, at least two attempts are made and the
first backoff delay is `450 * 1`. -/
theorem requestJson_retry_policy_witness :
    2 ≤ (requestJson
        (fun k => if k = 1 then .httpErr 500 "ISE" none else .ok .vnull) 1 450 "u").attempts
    ∧ (requestJson
        (fun k => if k = 1 then .httpErr 500 "ISE" none else .ok .vnull) 1 450 "u").sleeps.head?
      = some (450 * 1) :=
  (requestJson_retry_policy
    (fun k => if k = 1 then .httpErr 500 "ISE" none else .ok .vnull) 1 450 "u").2.2.2.2.2.1
    (by decide) (by decide) (by decide)

/-- Helper: reading inside the appended part of a list. -/
theorem getD_append_lt {α : Type} (l l' : List α) (i : Nat) (d : α) (h : i < l.length) :
    (l ++ l').getD i d = l.getD i d := by
  simp [List.getD, List.getElem?_append, h]

/-- Helper: reading the element just appended. -/
theorem getD_append_len {α : Type} (l : List α) (a d : α) :
    (l ++ [a]).getD l.length d = a := by
  simp [List.getD]

/-- Helper: reading an updated position. -/
theorem getD_set_self {α : Type} (l : List α) (i : Nat) (a d : α) (h : i < l.length) :
    (l.set i a).getD i d = a := by
  simp [List.getD, List.getElem?_set_self, h]

/-- Helper: reading an untouched position. -/
theorem getD_set_ne {α : Type} (l : List α) (i j : Nat) (a d : α) (h : i ≠ j) :
    (l.set i a).getD j d = l.getD j d := by
  simp [List.getD, List.getElem?_set_ne h]

/-- Helper: reading out of range gives the default. -/
theorem getD_of_le {α : Type} (l : List α) (i : Nat) (d : α) (h : l.length ≤ i) :
    l.getD i d = d := by
  simp [List.getD, List.getElem?_eq_none h]

/-- Helper: the fresh client satisfies the structural invariant. -/
theorem wsInv_init (cfg : WsConfig) : WsInv (wsInit cfg) := by
  refine ⟨?_, ?_, ?_⟩ <;> simp [wsInit, WsInv, WsState.phase]

/-- Helper: the invariant transfers along any state change that keeps the
socket list and current handle and re-establishes the timer correspondence. -/
theorem wsInv_of_core (s t : WsState) (hs : t.sockets = s.sockets) (hw : t.ws = s.ws)
    (ht : match t.reconnectTimer with
      | none => t.pendingReconnects = []
      | some tid => ∃ d, t.pendingReconnects = [(tid, d)])
    (h : WsInv s) : WsInv t := by
  obtain ⟨h1, _, h3⟩ := h
  refine ⟨?_, ht, ?_⟩
  · intro i hi ha
    simp only [WsState.phase, hs] at ha
    rw [hs] at hi
    rw [hw]
    exact h1 i hi ha
  · intro i hwi
    rw [hw] at hwi
    rw [hs]
    exact h3 i hwi

/-- Helper: `clearReconnectTimer` preserves the invariant and leaves no
pending timer. -/
theorem wsInv_clearTimer (s : WsState) (h : WsInv s) :
    WsInv (clearReconnectTimer s)
    ∧ (clearReconnectTimer s).reconnectTimer = none
    ∧ (clearReconnectTimer s).pendingReconnects = [] := by
  obtain ⟨h1, h2, h3⟩ := h
  cases htm : s.reconnectTimer with
  | none =>
      have hp : s.pendingReconnects = [] := by
        rw [htm] at h2
        exact h2
      have hceq : clearReconnectTimer s = s := by
        simp [clearReconnectTimer, htm]
      rw [hceq]
      exact ⟨⟨h1, h2, h3⟩, htm, hp⟩
  | some tid =>
      obtain ⟨d, hp⟩ : ∃ d, s.pendingReconnects = [(tid, d)] := by
        rw [htm] at h2
        exact h2
      refine ⟨?_, ?_, ?_⟩
      · refine wsInv_of_core s _ ?_ ?_ ?_ ⟨h1, h2, h3⟩ <;>
          simp [clearReconnectTimer, htm, hp]
      · simp [clearReconnectTimer, htm]
      · simp [clearReconnectTimer, htm, hp]

/-- Helper: `scheduleReconnect` preserves the invariant. -/
theorem wsInv_schedule (cfg : WsConfig) (s : WsState) (h : WsInv s) :
    WsInv (scheduleReconnect cfg s) := by
  obtain ⟨h1, h2, h3⟩ := h
  cases hsr : s.shouldReconnect with
  | false => simpa [scheduleReconnect, hsr] using ⟨h1, h2, h3⟩
  | true =>
      cases htm : s.reconnectTimer with
      | some tid => simpa [scheduleReconnect, hsr, htm] using ⟨h1, h2, h3⟩
      | none =>
          have hp : s.pendingReconnects = [] := by
            rw [htm] at h2
            exact h2
          refine wsInv_of_core s _ ?_ ?_ ?_ ⟨h1, h2, h3⟩ <;>
            simp [scheduleReconnect, hsr, htm, hp]

/-- Helper: when `connect()` passes its early-return guard, no socket of the
instance is connecting or open. -/
theorem no_active_of_not_busy (s : WsState) (h : WsInv s) (hb : s.currentBusy = false) :
    ∀ i, s.phase i ≠ .connecting ∧ s.phase i ≠ .opened := by
  obtain ⟨h1, _, _⟩ := h
  intro i
  by_cases hi : i < s.sockets.length
  · constructor <;>
      intro ha <;>
      [have hw := h1 i hi (Or.inl ha); have hw := h1 i hi (Or.inr ha)] <;>
      simp [WsState.currentBusy, hw, ha] at hb
  · have : s.phase i = .closed := getD_of_le _ _ _ (by omega)
    rw [this]
    exact ⟨by simp, by simp⟩

/-- Helper: `connect()` preserves the invariant. -/
theorem wsInv_connect (cfg : WsConfig) (s : WsState) (creationOk : Bool) (h : WsInv s) :
    WsInv (wsConnect cfg s creationOk) := by
  by_cases hurl : cfg.url = ""
  · simpa [wsConnect, hurl] using h
  · cases hb : s.currentBusy with
    | true => simpa [wsConnect, hurl, hb] using h
    | false =>
        obtain ⟨hc, hctm, hcp⟩ := wsInv_clearTimer s h
        have hna := no_active_of_not_busy s h hb
        cases creationOk with
        | false =>
            have := wsInv_schedule cfg (clearReconnectTimer s) hc
            simpa [wsConnect, hurl, hb] using this
        | true =>
            have hsocks : (clearReconnectTimer s).sockets = s.sockets := by
              cases htm : s.reconnectTimer <;> simp [clearReconnectTimer, htm]
            have hconn : wsConnect cfg s true
                = { clearReconnectTimer s with
                    sockets := (clearReconnectTimer s).sockets ++ [SockPhase.connecting],
                    ws := some (clearReconnectTimer s).sockets.length } := by
              simp [wsConnect, hurl, hb]
            rw [hconn]
            refine ⟨?_, ?_, ?_⟩
            · intro i hi ha
              simp only [List.length_append, List.length_cons, List.length_nil] at hi
              by_cases hlt : i < (clearReconnectTimer s).sockets.length
              · exfalso
                have hph : WsState.phase
                    { clearReconnectTimer s with
                      sockets := (clearReconnectTimer s).sockets ++ [SockPhase.connecting],
                      ws := some (clearReconnectTimer s).sockets.length } i
                    = s.phase i := by
                  simp only [WsState.phase]
                  rw [getD_append_lt _ _ _ _ hlt, hsocks]
                rw [hph] at ha
                rcases ha with ha | ha
                · exact (hna i).1 ha
                · exact (hna i).2 ha
              · have hieq : i = (clearReconnectTimer s).sockets.length := by omega
                simp [hieq]
            · simp only
              rw [hctm]
              exact hcp
            · intro i hwi
              simp only at hwi
              simp at hwi
              simp [hwi]

/-- Helper: `clearReconnectTimer` only touches the timer fields. -/
theorem clearTimer_fields (s : WsState) :
    (clearReconnectTimer s).sockets = s.sockets
    ∧ (clearReconnectTimer s).ws = s.ws
    ∧ (clearReconnectTimer s).shouldReconnect = s.shouldReconnect
    ∧ (clearReconnectTimer s).listeners = s.listeners
    ∧ (clearReconnectTimer s).nextListenerId = s.nextListenerId := by
  cases htm : s.reconnectTimer <;> simp [clearReconnectTimer, htm]

/-- Helper: `scheduleReconnect` only touches the timer and attempt fields. -/
theorem schedule_fields (cfg : WsConfig) (s : WsState) :
    (scheduleReconnect cfg s).sockets = s.sockets
    ∧ (scheduleReconnect cfg s).ws = s.ws
    ∧ (scheduleReconnect cfg s).shouldReconnect = s.shouldReconnect
    ∧ (scheduleReconnect cfg s).listeners = s.listeners
    ∧ (scheduleReconnect cfg s).nextListenerId = s.nextListenerId := by
  cases hsr : s.shouldReconnect <;> cases htm : s.reconnectTimer <;>
    simp [scheduleReconnect, hsr, htm]

/-- Helper: a quiescent state with no current socket satisfies the
structural invariant. -/
theorem wsInv_of_quiescent (t : WsState) (hq : wsQuiescent t) (hw : t.ws = none) :
    WsInv t := by
  obtain ⟨hsr, htm, hp, hph⟩ := hq
  refine ⟨?_, ?_, ?_⟩
  · intro i hi ha
    rcases ha with ha | ha
    · exact absurd ha (hph i).1
    · exact absurd ha (hph i).2
  · rw [htm]
    exact hp
  · intro i hwi
    rw [hw] at hwi
    exact Option.noConfusion hwi

/-- Helper: the shape of the state after `close()` — reconnect disabled,
handle dropped, timer cancelled, and the socket list either untouched (no
live current socket) or with the live current socket moved to `closing`. -/
theorem wsClose_shape (s : WsState) :
    (wsClose s).shouldReconnect = false
    ∧ (wsClose s).ws = none
    ∧ (wsClose s).reconnectTimer = none
    ∧ (wsClose s).pendingReconnects
        = (clearReconnectTimer { s with shouldReconnect := false }).pendingReconnects
    ∧ (((wsClose s).sockets = s.sockets
          ∧ ∀ cur, s.ws = some cur →
              ¬(s.phase cur = SockPhase.connecting ∨ s.phase cur = SockPhase.opened))
        ∨ (∃ cur, s.ws = some cur
            ∧ (s.phase cur = SockPhase.connecting ∨ s.phase cur = SockPhase.opened)
            ∧ (wsClose s).sockets = s.sockets.set cur SockPhase.closing)) := by
  obtain ⟨ws, sockets, conn, sr, ra, pr, rt, nt, ls, nl⟩ := s
  cases rt with
  | none =>
      cases ws with
      | none => simp [wsClose, clearReconnectTimer]
      | some cur =>
          refine ⟨?_, ?_, ?_, ?_, ?_⟩ <;>
            simp only [wsClose, clearReconnectTimer, WsState.setPhase, WsState.phase] <;>
            split <;>
            simp_all [WsState.phase]
  | some tid =>
      cases ws with
      | none => simp [wsClose, clearReconnectTimer]
      | some cur =>
          refine ⟨?_, ?_, ?_, ?_, ?_⟩ <;>
            simp only [wsClose, clearReconnectTimer, WsState.setPhase, WsState.phase] <;>
            split <;>
            simp_all [WsState.phase]

/-- Helper: no socket is live when every live index would have to be the
current one and the current one is not live. -/
theorem noact_aux (sockets : List SockPhase) (w : Option Nat)
    (h1 : ∀ i, i < sockets.length →
      (sockets.getD i SockPhase.closed = SockPhase.connecting
        ∨ sockets.getD i SockPhase.closed = SockPhase.opened) → w = some i)
    (hw : ∀ cur, w = some cur →
      ¬(sockets.getD cur SockPhase.closed = SockPhase.connecting
        ∨ sockets.getD cur SockPhase.closed = SockPhase.opened)) :
    ∀ i, sockets.getD i SockPhase.closed ≠ SockPhase.connecting
      ∧ sockets.getD i SockPhase.closed ≠ SockPhase.opened := by
  intro i
  by_cases hlt : i < sockets.length
  · constructor <;> intro ha
    · exact hw i (h1 i hlt (Or.inl ha)) (Or.inl ha)
    · exact hw i (h1 i hlt (Or.inr ha)) (Or.inr ha)
  · rw [getD_of_le _ _ _ (by omega)]
    exact ⟨by simp, by simp⟩

/-- Helper: after closing the live current socket, no socket is live. -/
theorem noact_set_aux (sockets : List SockPhase) (cur : Nat)
    (hcur : cur < sockets.length)
    (h1 : ∀ i, i < sockets.length →
      (sockets.getD i SockPhase.closed = SockPhase.connecting
        ∨ sockets.getD i SockPhase.closed = SockPhase.opened) →
      (some cur : Option Nat) = some i) :
    ∀ i, (sockets.set cur SockPhase.closing).getD i SockPhase.closed ≠ SockPhase.connecting
      ∧ (sockets.set cur SockPhase.closing).getD i SockPhase.closed ≠ SockPhase.opened := by
  intro i
  by_cases hieq : i = cur
  · subst hieq
    rw [getD_set_self _ _ _ _ hcur]
    exact ⟨by simp, by simp⟩
  · rw [getD_set_ne _ _ _ _ _ (fun hx => hieq hx.symm)]
    by_cases hlt : i < sockets.length
    · constructor <;> intro ha
      · have hx := h1 i hlt (Or.inl ha)
        exact hieq (Option.some.inj hx).symm
      · have hx := h1 i hlt (Or.inr ha)
        exact hieq (Option.some.inj hx).symm
    · rw [getD_of_le _ _ _ (by omega)]
      exact ⟨by simp, by simp⟩

/-- Helper: after `close()` the client is quiescent (auto-reconnect disabled,
no pending timer, no connecting or open socket) and still satisfies the
structural invariant. -/
theorem wsClose_quiescent (s : WsState) (h : WsInv s) :
    wsQuiescent (wsClose s) ∧ WsInv (wsClose s) := by
  obtain ⟨h1, h2, h3⟩ := h
  have hs1 : WsInv { s with shouldReconnect := false } :=
    wsInv_of_core s _ rfl rfl h2 ⟨h1, h2, h3⟩
  obtain ⟨_, _, hcp⟩ := wsInv_clearTimer _ hs1
  obtain ⟨hq1, hq2, hq3, hq4, hq5⟩ := wsClose_shape s
  have hpend : (wsClose s).pendingReconnects = [] := by
    rw [hq4]
    exact hcp
  have hnoq : ∀ i, (wsClose s).phase i ≠ SockPhase.connecting
      ∧ (wsClose s).phase i ≠ SockPhase.opened := by
    rcases hq5 with ⟨hsame, hnc⟩ | ⟨cur, hwc, hac, hset⟩
    · intro i
      simp only [WsState.phase, hsame]
      exact noact_aux s.sockets s.ws h1 (fun c hc => hnc c hc) i
    · intro i
      simp only [WsState.phase, hset]
      exact noact_set_aux s.sockets cur (h3 cur hwc)
        (fun j hj ha => by rw [← hwc]; exact h1 j hj ha) i
  have hq : wsQuiescent (wsClose s) := ⟨hq1, hq3, hpend, hnoq⟩
  exact ⟨hq, wsInv_of_quiescent _ hq hq2⟩

/-- Helper: the `onopen` handler preserves the invariant. -/
theorem wsInv_sockOpen (s : WsState) (i : Nat) (h : WsInv s) : WsInv (wsSockOpen s i) := by
  obtain ⟨h1, h2, h3⟩ := h
  cases hph : (s.phase i == SockPhase.connecting) with
  | false => simpa [wsSockOpen, hph] using ⟨h1, h2, h3⟩
  | true =>
      have hphp : s.phase i = .connecting := by simpa using hph
      have hlt : i < s.sockets.length := by
        by_contra hge
        have hc := getD_of_le s.sockets i SockPhase.closed (by omega)
        simp only [WsState.phase] at hphp
        rw [hc] at hphp
        exact SockPhase.noConfusion hphp
      have hws := h1 i hlt (Or.inl hphp)
      have heq : wsSockOpen s i
          = { s.setPhase i .opened with connected := true, reconnectAttempt := 0 } := by
        simp [wsSockOpen, hph]
      rw [heq]
      refine ⟨?_, ?_, ?_⟩
      · intro j hj ha
        simp only [WsState.phase, WsState.setPhase] at ha hj ⊢
        by_cases hji : j = i
        · subst hji
          exact hws
        · rw [getD_set_ne _ _ _ _ _ (fun hx => hji hx.symm)] at ha
          rw [List.length_set] at hj
          exact h1 j hj ha
      · exact h2
      · intro j hwj
        simp only [WsState.setPhase] at hwj ⊢
        rw [List.length_set]
        exact h3 j hwj

/-- Helper: the `onclose` handler preserves the invariant. -/
theorem wsInv_sockClose (cfg : WsConfig) (s : WsState) (i : Nat) (h : WsInv s) :
    WsInv (wsSockClose cfg s i) := by
  obtain ⟨h1, h2, h3⟩ := h
  cases hg : (s.phase i == SockPhase.closed || decide (s.sockets.length ≤ i)) with
  | true => simpa [wsSockClose, hg] using ⟨h1, h2, h3⟩
  | false =>
      have hlt : i < s.sockets.length := by
        simp at hg
        omega
      have hs1 : WsInv { s.setPhase i SockPhase.closed with connected := false } := by
        refine ⟨?_, ?_, ?_⟩
        · intro j hj ha
          simp only [WsState.phase, WsState.setPhase] at ha hj ⊢
          by_cases hji : j = i
          · subst hji
            rw [getD_set_self _ _ _ _ hlt] at ha
            rcases ha with ha | ha <;> exact SockPhase.noConfusion ha
          · rw [getD_set_ne _ _ _ _ _ (fun hx => hji hx.symm)] at ha
            rw [List.length_set] at hj
            exact h1 j hj ha
        · exact h2
        · intro j hwj
          simp only [WsState.setPhase] at hwj ⊢
          rw [List.length_set]
          exact h3 j hwj
      have heq : wsSockClose cfg s i
          = (if ({ s.setPhase i SockPhase.closed with connected := false } : WsState).shouldReconnect
              then scheduleReconnect cfg { s.setPhase i SockPhase.closed with connected := false }
              else { s.setPhase i SockPhase.closed with connected := false }) := by
        simp [wsSockClose, hg]
      rw [heq]
      split
      · exact wsInv_schedule cfg _ hs1
      · exact hs1

/-- Helper: a reconnect timer firing preserves the invariant. -/
theorem wsInv_timerFire (cfg : WsConfig) (s : WsState) (tid : Nat) (creationOk : Bool)
    (h : WsInv s) : WsInv (wsTimerFire cfg s tid creationOk) := by
  obtain ⟨h1, h2, h3⟩ := h
  cases hg : (s.pendingReconnects.filter (fun td => td.1 = tid)).isEmpty with
  | true => simpa [wsTimerFire, hg] using ⟨h1, h2, h3⟩
  | false =>
      have hs1 : WsInv { s with
          pendingReconnects := s.pendingReconnects.filter (fun td => td.1 ≠ tid),
          reconnectTimer := none } := by
        refine wsInv_of_core s _ rfl rfl ?_ ⟨h1, h2, h3⟩
        simp only
        cases htm : s.reconnectTimer with
        | none =>
            rw [htm] at h2
            simp [h2]
        | some t2 =>
            rw [htm] at h2
            obtain ⟨d, hd⟩ := h2
            rw [hd] at hg ⊢
            have ht2 : t2 = tid := by
              by_contra hne
              simp [hne] at hg
            subst ht2
            simp
      have heq : wsTimerFire cfg s tid creationOk
          = wsConnect cfg { s with
              pendingReconnects := s.pendingReconnects.filter (fun td => td.1 ≠ tid),
              reconnectTimer := none } creationOk := by
        simp [wsTimerFire, hg]
      rw [heq]
      exact wsInv_connect cfg _ creationOk hs1

/-- Helper: every event preserves the invariant. -/
theorem wsInv_step (cfg : WsConfig) (s : WsState) (e : WsEv) (h : WsInv s) :
    WsInv (wsStep cfg s e) := by
  cases e with
  | connect creationOk => exact wsInv_connect cfg s creationOk h
  | close => exact (wsClose_quiescent s h).2
  | sockOpen i => exact wsInv_sockOpen s i h
  | sockClose i => exact wsInv_sockClose cfg s i h
  | timerFire tid creationOk => exact wsInv_timerFire cfg s tid creationOk h

/-- Helper: any event sequence preserves the invariant. -/
theorem wsInv_run (cfg : WsConfig) (s : WsState) (evs : List WsEv) (h : WsInv s) :
    WsInv (wsRun cfg s evs) := by
  induction evs generalizing s with
  | nil => exact h
  | cons e rest ih => exact ih (wsStep cfg s e) (wsInv_step cfg s e h)

/-- Helper: every reachable state satisfies the invariant. -/
theorem wsInv_reachable (cfg : WsConfig) (s : WsState) (h : WsReachable cfg s) : WsInv s := by
  obtain ⟨evs, hrun⟩ := h
  rw [← hrun]
  exact wsInv_run cfg (wsInit cfg) evs (wsInv_init cfg)

/-- Helper: quiescence (with the invariant) persists under every event other
than a `connect()` call. -/
theorem wsQuiescent_step (cfg : WsConfig) (s : WsState) (e : WsEv)
    (hq : wsQuiescent s) (hInv : WsInv s) (he : e.isConnectCall = false) :
    wsQuiescent (wsStep cfg s e) ∧ WsInv (wsStep cfg s e) := by
  obtain ⟨hsr, htm, hp, hph⟩ := hq
  cases e with
  | connect creationOk => simp [WsEv.isConnectCall] at he
  | close => exact wsClose_quiescent s hInv
  | sockOpen i =>
      have hg : (s.phase i == SockPhase.connecting) = false := by
        have := (hph i).1
        simp [this]
      have heq : wsStep cfg s (.sockOpen i) = s := by
        simp [wsStep, wsSockOpen, hg]
      rw [heq]
      exact ⟨⟨hsr, htm, hp, hph⟩, hInv⟩
  | sockClose i =>
      cases hg : (s.phase i == SockPhase.closed || decide (s.sockets.length ≤ i)) with
      | true =>
          have heq : wsStep cfg s (.sockClose i) = s := by
            simp only [wsStep, wsSockClose]
            rw [hg]
            simp
          rw [heq]
          exact ⟨⟨hsr, htm, hp, hph⟩, hInv⟩
      | false =>
          have hlt : i < s.sockets.length := by
            simp at hg
            omega
          have heq : wsStep cfg s (.sockClose i)
              = { s.setPhase i SockPhase.closed with connected := false } := by
            simp only [wsStep, wsSockClose]
            rw [hg]
            simp [WsState.setPhase, hsr]
          rw [heq]
          have hq2 : wsQuiescent { s.setPhase i SockPhase.closed with connected := false } := by
            refine ⟨hsr, htm, hp, ?_⟩
            intro j
            simp only [WsState.phase, WsState.setPhase]
            by_cases hji : j = i
            · subst hji
              rw [getD_set_self _ _ _ _ hlt]
              exact ⟨by simp, by simp⟩
            · rw [getD_set_ne _ _ _ _ _ (fun hx => hji hx.symm)]
              exact hph j
          refine ⟨hq2, ?_⟩
          rw [← heq]
          exact wsInv_step cfg s (.sockClose i) hInv
  | timerFire tid creationOk =>
      have hg : (s.pendingReconnects.filter (fun td => td.1 = tid)).isEmpty = true := by
        rw [hp]
        rfl
      have heq : wsStep cfg s (.timerFire tid creationOk) = s := by
        simp [wsStep, wsTimerFire, hg]
      rw [heq]
      exact ⟨⟨hsr, htm, hp, hph⟩, hInv⟩

/-- Helper: quiescence persists under any sequence of events that contains no
`connect()` call. -/
theorem wsQuiescent_run (cfg : WsConfig) (s : WsState) (evs : List WsEv)
    (hq : wsQuiescent s) (hInv : WsInv s) (hevs : ∀ e ∈ evs, e.isConnectCall = false) :
    wsQuiescent (wsRun cfg s evs) ∧ WsInv (wsRun cfg s evs) := by
  induction evs generalizing s with
  | nil => exact ⟨hq, hInv⟩
  | cons e rest ih =>
      obtain ⟨hq2, hInv2⟩ :=
        wsQuiescent_step cfg s e hq hInv (hevs e (by simp))
      exact ih (wsStep cfg s e) hq2 hInv2 (fun e2 he2 => hevs e2 (by simp [he2]))

/-- C5: WebSocket reconnect backoff — an unexpected close of a live socket
with auto-reconnect enabled and no timer pending schedules reconnect attempt
`n = reconnectAttempt + 1` after exactly `min(maxDelay, baseDelay * (1 + n))`;
a successful open resets the attempt counter to 0; and in every reachable
state at most one reconnect timer is pending. -/
theorem wsClient_reconnect_backoff (cfg : WsConfig) :
    (∀ (s : WsState) (i : Nat), s.shouldReconnect = true → s.reconnectTimer = none →
      s.phase i ≠ .closed → i < s.sockets.length →
      (wsSockClose cfg s i).reconnectAttempt = s.reconnectAttempt + 1
      ∧ (wsSockClose cfg s i).pendingReconnects
          = s.pendingReconnects
            ++ [(s.nextTimerId,
                min cfg.maxDelay (cfg.baseDelay * (1 + (s.reconnectAttempt + 1))))])
    ∧ (∀ (s : WsState) (i : Nat), s.phase i = .connecting →
        (wsSockOpen s i).reconnectAttempt = 0)
    ∧ (∀ s : WsState, WsReachable cfg s → s.pendingReconnects.length ≤ 1) := by
  refine ⟨?_, ?_, ?_⟩
  · intro s i hsr htm hnc hlt
    have hg : (s.phase i == SockPhase.closed || decide (s.sockets.length ≤ i)) = false := by
      simp [hnc]
      omega
    have heq : wsSockClose cfg s i
        = scheduleReconnect cfg { s.setPhase i SockPhase.closed with connected := false } := by
      simp only [wsSockClose]
      rw [hg]
      simp [WsState.setPhase, hsr]
    rw [heq]
    simp [scheduleReconnect, WsState.setPhase, hsr, htm]
  · intro s i hph
    have hg : (s.phase i == SockPhase.connecting) = true := by simp [hph]
    simp [wsSockOpen, hg]
  · intro s hr
    obtain ⟨_, h2, _⟩ := wsInv_reachable cfg s hr
    cases htm : s.reconnectTimer with
    | none =>
        rw [htm] at h2
        simp [h2]
    | some tid =>
        rw [htm] at h2
        obtain ⟨d, hd⟩ := h2
        simp [hd]

/-- Witness for the reconnect-backoff theorem: after connecting and opening
one socket under base delay 700 and max delay 10000, an unexpected close
schedules the first reconnect with delay `min(10000, 700 * 2) = 1400`. -/
theorem wsClient_reconnect_backoff_witness :
    (wsSockClose ⟨"ws://h", true, 700, 10000⟩
        (wsRun ⟨"ws://h", true, 700, 10000⟩ (wsInit ⟨"ws://h", true, 700, 10000⟩)
          [.connect true, .sockOpen 0]) 0).reconnectAttempt = 0 + 1
    ∧ (wsSockClose ⟨"ws://h", true, 700, 10000⟩
        (wsRun ⟨"ws://h", true, 700, 10000⟩ (wsInit ⟨"ws://h", true, 700, 10000⟩)
          [.connect true, .sockOpen 0]) 0).pendingReconnects
      = [] ++ [(0, min 10000 (700 * (1 + (0 + 1))))] :=
  (wsClient_reconnect_backoff ⟨"ws://h", true, 700, 10000⟩).1
    (wsRun ⟨"ws://h", true, 700, 10000⟩ (wsInit ⟨"ws://h", true, 700, 10000⟩)
      [.connect true, .sockOpen 0]) 0
    (by decide) (by decide) (by decide) (by decide)

/-- C4 (amended): after `close()`, under any further events that do not
include a `connect()` call, auto-reconnect stays disabled, no reconnect timer
is pending or fires, and no socket is ever connecting or open again; a
subsequent `connect()` call does open a fresh socket (the client is usable
again), but it does not restore the behaviour of a newly created client —
auto-reconnect remains disabled because `shouldReconnect` is never reset. -/
theorem wsClient_close_terminal (cfg : WsConfig) (s : WsState) (h : WsReachable cfg s)
    (evs : List WsEv) (hevs : ∀ e ∈ evs, e.isConnectCall = false) :
    ((wsRun cfg (wsClose s) evs).shouldReconnect = false
      ∧ (wsRun cfg (wsClose s) evs).reconnectTimer = none
      ∧ (wsRun cfg (wsClose s) evs).pendingReconnects = []
      ∧ ∀ i, (wsRun cfg (wsClose s) evs).phase i ≠ .connecting
          ∧ (wsRun cfg (wsClose s) evs).phase i ≠ .opened)
    ∧ (cfg.url ≠ "" →
        (wsConnect cfg (wsClose s) true).ws = some (wsClose s).sockets.length
        ∧ (wsConnect cfg (wsClose s) true).phase (wsClose s).sockets.length = .connecting
        ∧ (wsConnect cfg (wsClose s) true).shouldReconnect = false) := by
  have hInv := wsInv_reachable cfg s h
  obtain ⟨hq, hInv2⟩ := wsClose_quiescent s hInv
  constructor
  · obtain ⟨⟨a1, a2, a3, a4⟩, _⟩ := wsQuiescent_run cfg (wsClose s) evs hq hInv2 hevs
    exact ⟨a1, a2, a3, a4⟩
  · intro hurl
    have hwsn : (wsClose s).ws = none := (wsClose_shape s).2.1
    have htmn : (wsClose s).reconnectTimer = none := (wsClose_shape s).2.2.1
    have hbusy : (wsClose s).currentBusy = false := by
      simp [WsState.currentBusy, hwsn]
    have hclear : clearReconnectTimer (wsClose s) = wsClose s := by
      simp [clearReconnectTimer, htmn]
    have hconn : wsConnect cfg (wsClose s) true
        = { wsClose s with
            sockets := (wsClose s).sockets ++ [SockPhase.connecting],
            ws := some (wsClose s).sockets.length } := by
      simp [wsConnect, hurl, hbusy, hclear]
    rw [hconn]
    refine ⟨rfl, ?_, ?_⟩
    · simp only [WsState.phase]
      exact getD_append_len _ _ _
    · exact hq.1

/-- Witness for the close-terminal theorem: with one opened socket, closing
the client and then receiving the socket close event leaves no pending
reconnect timer. -/
theorem wsClient_close_terminal_witness :
    (wsRun ⟨"ws://h", true, 700, 10000⟩
        (wsClose (wsRun ⟨"ws://h", true, 700, 10000⟩ (wsInit ⟨"ws://h", true, 700, 10000⟩)
          [.connect true, .sockOpen 0]))
        [.sockClose 0]).pendingReconnects = [] :=
  ((wsClient_close_terminal ⟨"ws://h", true, 700, 10000⟩
      (wsRun ⟨"ws://h", true, 700, 10000⟩ (wsInit ⟨"ws://h", true, 700, 10000⟩)
        [.connect true, .sockOpen 0])
      ⟨[.connect true, .sockOpen 0], rfl⟩
      [.sockClose 0] (by decide)).1).2.2.1

/-- Counterexample for C4 as stated: a `connect()` after `close()` does not
restore the behaviour of a newly created client.  With reconnect configured,
a fresh client that loses its socket unexpectedly schedules a reconnect
timer, but a client that was closed and re-connected schedules none after the
same unexpected close, and its auto-reconnect flag is still off. -/
theorem wsClient_close_reenable_counterexample :
    (wsRun ⟨"ws://h", true, 700, 10000⟩ (wsInit ⟨"ws://h", true, 700, 10000⟩)
        [.connect true, .sockOpen 0, .close, .connect true, .sockOpen 1,
          .sockClose 1]).pendingReconnects.length = 0
    ∧ (wsRun ⟨"ws://h", true, 700, 10000⟩ (wsInit ⟨"ws://h", true, 700, 10000⟩)
        [.connect true, .sockOpen 0, .sockClose 0]).pendingReconnects.length = 1
    ∧ (wsRun ⟨"ws://h", true, 700, 10000⟩ (wsInit ⟨"ws://h", true, 700, 10000⟩)
        [.connect true, .sockOpen 0, .close, .connect true, .sockOpen 1,
          .sockClose 1]).shouldReconnect = false := by
  decide

/-- Helper: the fresh mock provider satisfies its interval invariant. -/
theorem mockInv_init (now0 : Int) : MockInv (mockInit now0) := by
  simp [MockInv, mockInit]

/-- Helper: every mock-provider operation preserves the interval invariant. -/
theorem mockInv_apply (s : MockState) (op : MockOp) (h : MockInv s) :
    MockInv (applyMockOp s op) := by
  cases op with
  | getDevices now => exact h
  | getRegions => exact h
  | getAnalyticsSummary now => exact h
  | getRouteProgress now => exact h
  | uploadLogs files now => exact h
  | subscribe cb =>
      simp only [applyMockOp, mockSubscribe, startEmittingUpdates]
      cases hid : s.intervalId with
      | none =>
          rw [MockInv, hid] at h
          simp [MockInv, hid, h]
      | some tid =>
          rw [MockInv, hid] at h
          simp [MockInv, hid, h]
  | unsubscribe =>
      simp only [applyMockOp, mockUnsubscribe, stopEmittingUpdates]
      cases hid : s.intervalId with
      | none =>
          rw [MockInv, hid] at h
          simp [MockInv, hid, h]
      | some tid =>
          rw [MockInv, hid] at h
          simp [MockInv, hid, h]
  | tick tid pickIdx jlat jlng jspd jrsrp jsinr now =>
      simp only [applyMockOp, mockTick]
      split <;> exact h

/-- Helper: the interval invariant holds after any operation sequence. -/
theorem mockInv_run (now0 : Int) (ops : List MockOp) :
    MockInv (mockRun (mockInit now0) ops) := by
  have : ∀ (s : MockState), MockInv s → MockInv (mockRun s ops) := by
    induction ops with
    | nil => exact fun s h => h
    | cons op rest ih => exact fun s h => ih (applyMockOp s op) (mockInv_apply s op h)
  exact this _ (mockInv_init now0)

/-- Helper: a filter over a list whose every element fails the predicate is
empty, index-wise. -/
theorem filter_eq_nil_of_getD {α : Type} (l : List α) (p : α → Bool) (d : α)
    (h : ∀ i, i < l.length → p (l.getD i d) = false) : l.filter p = [] := by
  rw [List.filter_eq_nil_iff]
  intro a ha
  obtain ⟨i, hi, hx⟩ := List.mem_iff_getElem.mp ha
  have := h i hi
  rw [List.getD_eq_getElem l d hi, hx] at this
  simp [this]

/-- Helper: if every index satisfying the predicate equals one fixed index,
the filtered list has at most one element. -/
theorem filter_length_le_one_unique {α : Type} (l : List α) (p : α → Bool) (d : α)
    (cur : Nat) (h : ∀ i, i < l.length → p (l.getD i d) = true → i = cur) :
    (l.filter p).length ≤ 1 := by
  induction l generalizing cur with
  | nil => simp
  | cons a t ih =>
      cases hpa : p a with
      | false =>
          have h2 : ∀ i, i < t.length → p (t.getD i d) = true → i = cur - 1 := by
            intro i hi hp
            have := h (i + 1) (by simpa using hi) (by simpa using hp)
            omega
          simpa [List.filter, hpa] using ih (cur - 1) h2
      | true =>
          have hc0 : cur = 0 := (h 0 (by simp) (by simpa using hpa)).symm
          have hft : t.filter p = [] := by
            refine filter_eq_nil_of_getD _ _ d ?_
            intro i hi
            by_contra hne
            have hp : p (t.getD i d) = true := by
              cases hq : p (t.getD i d)
              · exact absurd hq hne
              · rfl
            have := h (i + 1) (by simpa using hi) (by simpa using hp)
            omega
          simp [List.filter, hpa, hft]

/-- Helper: under the invariant at most one socket is connecting or open. -/
theorem activeSockets_le_one (s : WsState) (h : WsInv s) : s.activeSockets ≤ 1 := by
  obtain ⟨h1, _, _⟩ := h
  cases hws : s.ws with
  | none =>
      have hnil : s.sockets.filter
          (fun p => p == SockPhase.connecting || p == SockPhase.opened) = [] := by
        refine filter_eq_nil_of_getD _ _ SockPhase.closed ?_
        intro i hi
        cases hq : (s.sockets.getD i SockPhase.closed == SockPhase.connecting
            || s.sockets.getD i SockPhase.closed == SockPhase.opened) with
        | false => rfl
        | true =>
            have hact : s.phase i = SockPhase.connecting ∨ s.phase i = SockPhase.opened := by
              simp only [WsState.phase]
              simpa using hq
            have hcontr := h1 i hi hact
            rw [hws] at hcontr
            exact Option.noConfusion hcontr
      simp [WsState.activeSockets, hnil]
  | some cur =>
      rw [WsState.activeSockets]
      refine filter_length_le_one_unique _ _ SockPhase.closed cur ?_
      intro i hi hp
      have hact : s.phase i = SockPhase.connecting ∨ s.phase i = SockPhase.opened := by
        simp only [WsState.phase]
        simpa using hp
      have hcontr := h1 i hi hact
      rw [hws] at hcontr
      exact (Option.some.inj hcontr).symm

/-- Helper: a state with no connecting or open socket has no active socket. -/
theorem activeSockets_eq_zero (s : WsState)
    (h : ∀ i, s.phase i ≠ SockPhase.connecting ∧ s.phase i ≠ SockPhase.opened) :
    s.activeSockets = 0 := by
  have hnil : s.sockets.filter
      (fun p => p == SockPhase.connecting || p == SockPhase.opened) = [] := by
    refine filter_eq_nil_of_getD _ _ SockPhase.closed ?_
    intro i hi
    cases hq : (s.sockets.getD i SockPhase.closed == SockPhase.connecting
        || s.sockets.getD i SockPhase.closed == SockPhase.opened) with
    | false => rfl
    | true =>
        have hact : s.sockets.getD i SockPhase.closed = SockPhase.connecting
            ∨ s.sockets.getD i SockPhase.closed = SockPhase.opened := by
          simpa using hq
        rcases hact with hx | hx
        · exact absurd hx (h i).1
        · exact absurd hx (h i).2
  simp [WsState.activeSockets, hnil]

/-- Helper: `connect()` never touches the listener set. -/
theorem wsConnect_listeners (cfg : WsConfig) (s : WsState) (ok : Bool) :
    (wsConnect cfg s ok).listeners = s.listeners
    ∧ (wsConnect cfg s ok).nextListenerId = s.nextListenerId := by
  obtain ⟨_, _, _, hcl, hcn⟩ := clearTimer_fields s
  obtain ⟨_, _, _, hsl, hsn⟩ := schedule_fields cfg (clearReconnectTimer s)
  by_cases hurl : cfg.url = ""
  · simp [wsConnect, hurl]
  · cases hb : s.currentBusy with
    | true => simp [wsConnect, hurl, hb]
    | false =>
        cases ok with
        | true =>
            constructor <;> simp [wsConnect, hurl, hb] <;> [exact hcl; exact hcn]
        | false =>
            constructor <;> simp [wsConnect, hurl, hb] <;>
              [rw [hsl]; rw [hsn]] <;> [exact hcl; exact hcn]

/-- Helper: `close()` never touches the listener set. -/
theorem wsClose_listeners (s : WsState) :
    (wsClose s).listeners = s.listeners
    ∧ (wsClose s).nextListenerId = s.nextListenerId := by
  obtain ⟨ws, sockets, conn, sr, ra, pr, rt, nt, ls, nl⟩ := s
  cases rt <;> cases ws <;>
    simp [wsClose, clearReconnectTimer, WsState.setPhase] <;>
    split <;> simp

/-- Helper: the underlying client of a live provider satisfies the WebSocket
invariant throughout its life. -/
theorem liveWsInv (cfg : WsConfig) (ops : List LiveOp) :
    WsInv (liveRun cfg (liveInit cfg) ops).ws := by
  have hstep : ∀ (t : LiveState) (op : LiveOp), WsInv t.ws → WsInv (applyLiveOp cfg t op).ws := by
    intro t op h
    cases op with
    | subscribe ok =>
        have h2 := wsInv_connect cfg t.ws ok h
        exact wsInv_of_core (wsConnect cfg t.ws ok) _ rfl rfl h2.2.1 h2
    | unsubscribe =>
        have h1 : WsInv (match t.unsubWsVar with
            | some id => wsUnsubscribeListener t.ws id
            | none => t.ws) := by
          cases t.unsubWsVar with
          | some id => exact wsInv_of_core t.ws _ rfl rfl h.2.1 h
          | none => exact h
        exact (wsClose_quiescent _ h1).2
    | sockOpen i => exact wsInv_sockOpen t.ws i h
    | sockClose i => exact wsInv_sockClose cfg t.ws i h
    | timerFire tid ok => exact wsInv_timerFire cfg t.ws tid ok h
  have : ∀ (t : LiveState), WsInv t.ws → WsInv (liveRun cfg t ops).ws := by
    induction ops with
    | nil => exact fun t h => h
    | cons op rest ih => exact fun t h => ih (applyLiveOp cfg t op) (hstep t op h)
  exact this (liveInit cfg) (wsInv_init cfg)

/-- C3 (amended): each provider holds at most one underlying event source —
any operation sequence leaves the mock provider with at most one interval
timer (three subscribers start exactly one) and the live provider with at
most one connecting-or-open socket.  A provider-level `unsubscribe()` tears
the source down: the mock provider clears every subscriber and stops its
timer so a tick delivers nothing; the live provider closes the socket (no
active socket, no pending reconnect, message frames deliver to nobody) but
removes only the most recently registered relay listener — with two live
subscribers the first relay listener stays registered on the client. -/
theorem provider_single_event_source (cfg : WsConfig) :
    (∀ (now0 : Int) (ops : List MockOp),
      (mockRun (mockInit now0) ops).activeIntervals.length ≤ 1)
    ∧ (∀ (now0 : Int) (c1 c2 c3 : Nat),
        (mockRun (mockInit now0)
          [.subscribe c1, .subscribe c2, .subscribe c3]).emitterStarts = 1
        ∧ (mockRun (mockInit now0)
          [.subscribe c1, .subscribe c2, .subscribe c3]).activeIntervals.length = 1)
    ∧ (∀ (now0 : Int) (ops : List MockOp),
        (mockUnsubscribe (mockRun (mockInit now0) ops)).subs = []
        ∧ (mockUnsubscribe (mockRun (mockInit now0) ops)).intervalId = none
        ∧ (mockUnsubscribe (mockRun (mockInit now0) ops)).activeIntervals = []
        ∧ ∀ (tid pickIdx : Nat) (jlat jlng jspd jrsrp jsinr : Rat) (now : Int),
            (mockTick tid pickIdx jlat jlng jspd jrsrp jsinr now
              (mockUnsubscribe (mockRun (mockInit now0) ops))).1 = [])
    ∧ (∀ ops : List LiveOp, (liveRun cfg (liveInit cfg) ops).ws.activeSockets ≤ 1)
    ∧ (∀ ops : List LiveOp,
        (liveUnsubscribe (liveRun cfg (liveInit cfg) ops)).ws.shouldReconnect = false
        ∧ (liveUnsubscribe (liveRun cfg (liveInit cfg) ops)).ws.pendingReconnects = []
        ∧ (liveUnsubscribe (liveRun cfg (liveInit cfg) ops)).ws.activeSockets = 0
        ∧ ∀ i, wsMessageDeliver (liveUnsubscribe (liveRun cfg (liveInit cfg) ops)).ws i = [])
    ∧ (∀ ok1 ok2 : Bool,
        (liveRun cfg (liveInit cfg)
          [.subscribe ok1, .subscribe ok2, .unsubscribe]).ws.listeners = [0]) := by
  refine ⟨?_, ?_, ?_, ?_, ?_, ?_⟩
  · intro now0 ops
    have h := mockInv_run now0 ops
    rw [MockInv] at h
    rw [h]
    cases (mockRun (mockInit now0) ops).intervalId <;> simp
  · intro now0 c1 c2 c3
    simp only [mockRun, List.foldl, applyMockOp, mockSubscribe, mockInit]
    constructor <;>
      (repeat' split) <;>
      simp [startEmittingUpdates]
  · intro now0 ops
    have h := mockInv_run now0 ops
    rw [MockInv] at h
    have hmain : (mockUnsubscribe (mockRun (mockInit now0) ops)).subs = []
        ∧ (mockUnsubscribe (mockRun (mockInit now0) ops)).intervalId = none
        ∧ (mockUnsubscribe (mockRun (mockInit now0) ops)).activeIntervals = [] := by
      cases hid : (mockRun (mockInit now0) ops).intervalId with
      | none =>
          rw [hid] at h
          simp [mockUnsubscribe, stopEmittingUpdates, hid, h]
      | some tid =>
          rw [hid] at h
          simp [mockUnsubscribe, stopEmittingUpdates, hid, h]
    refine ⟨hmain.1, hmain.2.1, hmain.2.2, ?_⟩
    intro tid pickIdx jlat jlng jspd jrsrp jsinr now
    simp [mockTick, hmain.2.2]
  · intro ops
    exact activeSockets_le_one _ (liveWsInv cfg ops)
  · intro ops
    have hInv := liveWsInv cfg ops
    have hInv1 : WsInv (match (liveRun cfg (liveInit cfg) ops).unsubWsVar with
        | some id => wsUnsubscribeListener (liveRun cfg (liveInit cfg) ops).ws id
        | none => (liveRun cfg (liveInit cfg) ops).ws) := by
      cases (liveRun cfg (liveInit cfg) ops).unsubWsVar with
      | some id => exact wsInv_of_core _ _ rfl rfl hInv.2.1 hInv
      | none => exact hInv
    obtain ⟨hq1, hq2, hq3, hq4⟩ := (wsClose_quiescent _ hInv1).1
    have hws : (liveUnsubscribe (liveRun cfg (liveInit cfg) ops)).ws
        = wsClose (match (liveRun cfg (liveInit cfg) ops).unsubWsVar with
          | some id => wsUnsubscribeListener (liveRun cfg (liveInit cfg) ops).ws id
          | none => (liveRun cfg (liveInit cfg) ops).ws) := by
      simp only [liveUnsubscribe]
    rw [hws]
    refine ⟨hq1, hq3, activeSockets_eq_zero _ hq4, ?_⟩
    intro i
    have := (hq4 i).2
    simp [wsMessageDeliver, this]
  · intro ok1 ok2
    obtain ⟨hl1, hn1⟩ := wsConnect_listeners cfg (wsInit cfg) ok1
    have f1 : (liveSubscribe cfg ok1 (liveInit cfg)).ws.listeners = [0]
        ∧ (liveSubscribe cfg ok1 (liveInit cfg)).ws.nextListenerId = 1
        ∧ (liveSubscribe cfg ok1 (liveInit cfg)).unsubWsVar = some 0 := by
      refine ⟨?_, ?_, ?_⟩ <;>
        simp only [liveSubscribe, wsSubscribe, liveInit] <;>
        simp only [hl1, hn1] <;>
        simp [wsInit]
    obtain ⟨f1a, f1b, f1c⟩ := f1
    set s1 := liveSubscribe cfg ok1 (liveInit cfg) with hs1
    obtain ⟨hl2, hn2⟩ := wsConnect_listeners cfg s1.ws ok2
    have f2 : (liveSubscribe cfg ok2 s1).ws.listeners = [0, 1]
        ∧ (liveSubscribe cfg ok2 s1).unsubWsVar = some 1 := by
      constructor <;>
        simp only [liveSubscribe, wsSubscribe] <;>
        simp only [hl2, hn2] <;>
        simp [f1a, f1b]
    obtain ⟨f2a, f2c⟩ := f2
    have hrun : liveRun cfg (liveInit cfg) [.subscribe ok1, .subscribe ok2, .unsubscribe]
        = liveUnsubscribe (liveSubscribe cfg ok2 s1) := rfl
    rw [hrun]
    simp only [liveUnsubscribe, f2c]
    obtain ⟨hcl, _⟩ := wsClose_listeners
      (wsUnsubscribeListener (liveSubscribe cfg ok2 s1).ws 1)
    rw [hcl]
    simp [wsUnsubscribeListener, f2a]

/-- C3 counterexample: with two consecutive live subscriptions, the provider's
`unsubscribe()` does not remove every registered callback — the relay listener
of the first subscription is still registered on the WebSocket client
afterwards, because `unsubWs` was overwritten by the second subscription. -/
theorem liveProvider_unsubscribe_counterexample :
    (liveRun ⟨"ws://h", true, 700, 10000⟩
      (liveInit ⟨"ws://h", true, 700, 10000⟩)
      [.subscribe true, .subscribe true, .unsubscribe]).ws.listeners ≠ [] := by
  decide

end Portal
